import Mathlib

/-!
Verification development for a securities class-action settlement loss
calculator (Twitter / Kraft Heinz methodologies).  The definitions below
are a shallow embedding of the calculator's core: calendar timestamps are
modelled as minute counts in the proleptic Gregorian calendar, Python
floats as rationals, dictionaries as association lists, and the FIFO
matching loop as structural recursion over the inventory list.
-/

namespace DRRT

/-! ### Calendar model

A Python `datetime` at minute granularity is a natural number:
`rataDie y m d * 1440 + hour * 60 + minute`.  `rataDie` is the standard
day count of the proleptic Gregorian calendar (day 1 = January 1, AD 1,
a Monday), so `Nat` order coincides with `datetime` order for all the
whole-minute timestamps the calculator manipulates. -/

def isLeap (y : Nat) : Bool :=
  (y % 4 == 0 && y % 100 != 0) || y % 400 == 0

def daysBeforeMonth (m : Nat) (leap : Bool) : Nat :=
  let base :=
    match m with
    | 1 => 0 | 2 => 31 | 3 => 59 | 4 => 90 | 5 => 120 | 6 => 151
    | 7 => 181 | 8 => 212 | 9 => 243 | 10 => 273 | 11 => 304 | _ => 334
  if leap && m > 2 then base + 1 else base

def rataDie (y m d : Nat) : Nat :=
  365 * (y - 1) + (y - 1) / 4 - (y - 1) / 100 + (y - 1) / 400 +
    daysBeforeMonth m (isLeap y) + d

/-- `datetime(y, m, d, h, mi)` as a minute count. -/
def dt (y m d : Nat) (h : Nat := 0) (mi : Nat := 0) : Nat :=
  rataDie y m d * 1440 + h * 60 + mi

def dayOf (t : Nat) : Nat := t / 1440
def hourOf (t : Nat) : Nat := t % 1440 / 60
def minuteOf (t : Nat) : Nat := t % 60
/-- Python `date.weekday()`: Monday = 0 … Sunday = 6. -/
def weekdayOf (day : Nat) : Nat := (day + 6) % 7

/-- Python `round(x, 4)` modelled on rationals. -/
def round4 (x : ℚ) : ℚ := ((round (x * 10000) : ℤ) : ℚ) / 10000

/-- Python `round(x, 2)` modelled on rationals. -/
def round2 (x : ℚ) : ℚ := ((round (x * 100) : ℤ) : ℚ) / 100

/-! ### Data model (`TransactionType`, `SettlementType`, `Transaction`,
`InflationPeriod`, `TimeGroup`, `MatchResult`) -/

inductive TransactionType where
  | PURCHASE | SALE | BEGINNING_HOLDINGS | OPENING_POSITION
deriving DecidableEq, Repr

inductive SettlementType where
  | TWITTER | KRAFT_HEINZ
deriving DecidableEq, Repr

structure Transaction where
  id : String
  date : Nat
  quantity : ℚ
  price : ℚ
  ttype : TransactionType
  entity : String
  fund_name : String
  remaining_quantity : ℚ := quantity
deriving DecidableEq, Repr

/-- `InflationPeriod`; Python's `end` field is `stop` here (`end` is a
Lean keyword). -/
structure InflationPeriod where
  start : Nat
  stop : Nat
  inflation : ℚ
  name : String
deriving DecidableEq, Repr

/-- `TimeGroup`; Python's `end` field is `stop` here. -/
structure TimeGroup where
  name : String
  start : Nat
  stop : Nat
  index : Int
deriving DecidableEq, Repr

/-- `MatchResult` (the generated `match_id`, the `rule_applied` label and
the `details` dict carry no information the claims touch and are
omitted). -/
structure MatchResult where
  purchase_id : String
  sale_id : Option String
  quantity : ℚ
  recognized_loss : ℚ
  rule_code : String
  purchase_date : Nat
  sale_date : Option Nat
  purchase_price : ℚ
  sale_price : Option ℚ
  entity : String
  fund_name : String
deriving DecidableEq, Repr

/-! ### Settlement configuration

One structure holds both methods' fields, as in the Python class; the
fields the selected method does not use are left at their defaults and
are never read (the rule functions branch on `settlement_type` first). -/

structure Config where
  settlement_type : SettlementType
  class_start : Nat
  class_end : Nat
  first_corrective_date : Nat := 0
  price_threshold : ℚ := 0
  lookback_start : Nat
  lookback_end : Nat
  average_price : ℚ
  time_groups : List TimeGroup := []
  decline_matrix : List ((Int × Int) × ℚ) := []
  corrective_dates : List Nat := []
  inflation_periods : List InflationPeriod := []
  avg_closing_prices : List (Nat × ℚ)

/-- `_load_twitter_avg_prices` (Table 2 of the Twitter notice). -/
def twitterAvgPrices : List (Nat × ℚ) := [
  (dt 2015 8 3, 29.27), (dt 2015 8 4, 29.31),
  (dt 2015 8 5, 29.03), (dt 2015 8 6, 28.66),
  (dt 2015 8 7, 28.33), (dt 2015 8 10, 28.35),
  (dt 2015 8 11, 28.33), (dt 2015 8 12, 28.59),
  (dt 2015 8 13, 28.45), (dt 2015 8 14, 28.40),
  (dt 2015 8 17, 28.23), (dt 2015 8 18, 28.48),
  (dt 2015 8 19, 27.94), (dt 2015 8 20, 27.72),
  (dt 2015 8 21, 27.37), (dt 2015 8 24, 26.47),
  (dt 2015 8 25, 26.60), (dt 2015 8 26, 26.94),
  (dt 2015 8 27, 27.73), (dt 2015 8 28, 27.74),
  (dt 2015 8 31, 27.87),
  (dt 2015 9 1, 26.87), (dt 2015 9 2, 27.27),
  (dt 2015 9 3, 27.69), (dt 2015 9 4, 27.02),
  (dt 2015 9 8, 27.63), (dt 2015 9 9, 27.92),
  (dt 2015 9 10, 27.83), (dt 2015 9 11, 27.79),
  (dt 2015 9 14, 27.63), (dt 2015 9 15, 27.73),
  (dt 2015 9 16, 27.69), (dt 2015 9 17, 27.66),
  (dt 2015 9 18, 27.62), (dt 2015 9 21, 27.35),
  (dt 2015 9 22, 27.32), (dt 2015 9 23, 27.27),
  (dt 2015 9 24, 26.59), (dt 2015 9 25, 26.42),
  (dt 2015 9 28, 26.64), (dt 2015 9 29, 27.21),
  (dt 2015 9 30, 27.25),
  (dt 2015 10 1, 27.04), (dt 2015 10 2, 27.55),
  (dt 2015 10 5, 27.75), (dt 2015 10 6, 28.27),
  (dt 2015 10 7, 28.37), (dt 2015 10 8, 28.74),
  (dt 2015 10 9, 28.82), (dt 2015 10 12, 28.95),
  (dt 2015 10 13, 28.86), (dt 2015 10 14, 28.71),
  (dt 2015 10 15, 29.02), (dt 2015 10 16, 29.36),
  (dt 2015 10 19, 29.52), (dt 2015 10 20, 29.56),
  (dt 2015 10 21, 29.60), (dt 2015 10 22, 29.64),
  (dt 2015 10 23, 29.46), (dt 2015 10 26, 29.35),
  (dt 2015 10 27, 28.96), (dt 2015 10 28, 29.09),
  (dt 2015 10 29, 28.47), (dt 2015 10 30, 28.06)]

/-- `_initialize_twitter_config`. -/
def twitterConfig : Config where
  settlement_type := .TWITTER
  class_start := dt 2015 2 6
  class_end := dt 2015 7 28
  first_corrective_date := dt 2015 4 28
  price_threshold := 50.45
  lookback_start := dt 2015 8 3
  lookback_end := dt 2015 10 30
  average_price := 28.06
  time_groups := [
    ⟨"2/6/2015-4/28/2015 before 3:07pm", dt 2015 2 6, dt 2015 4 28 15 6, 0⟩,
    ⟨"4/28/2015 at/after 3:07pm", dt 2015 4 28 15 7, dt 2015 4 28 23 59, 1⟩,
    ⟨"4/29/2015-7/28/2015", dt 2015 4 29, dt 2015 7 28, 2⟩,
    ⟨"7/29/2015-7/30/2015", dt 2015 7 29, dt 2015 7 30, 3⟩,
    ⟨"7/31/2015", dt 2015 7 31, dt 2015 7 31, 4⟩,
    ⟨"8/1/2015 and beyond", dt 2015 8 1, dt 2025 12 31, 5⟩]
  decline_matrix := [
    ((0, 0), 0.00), ((0, 1), 8.97), ((0, 2), 12.93),
    ((0, 3), 18.27), ((0, 4), 18.69), ((0, 5), 20.34),
    ((1, 0), 0.00), ((1, 1), 0.00), ((1, 2), 3.96),
    ((1, 3), 9.30), ((1, 4), 9.72), ((1, 5), 11.37),
    ((2, 0), 0.00), ((2, 1), 0.00), ((2, 2), 0.00),
    ((2, 3), 5.34), ((2, 4), 5.76), ((2, 5), 7.41)]
  avg_closing_prices := twitterAvgPrices

def khInflationPeriods : List InflationPeriod := [
  ⟨dt 2015 11 6, dt 2018 11 1, 12.59, "Before 11/2/2018"⟩,
  ⟨dt 2018 11 2, dt 2019 2 21, 10.93, "11/2/2018 - 2/21/2019"⟩,
  ⟨dt 2019 2 22, dt 2019 8 7, 4.04, "2/22/2019 - 8/7/2019"⟩,
  ⟨dt 2019 8 8, dt 2019 8 8, 1.33, "8/8/2019 (sale only)"⟩,
  ⟨dt 2019 8 9, dt 2025 12 31, 0.00, "After 8/8/2019"⟩]

def clampKH (x : ℚ) : ℚ := max 27.0 (min 29.0 x)

/-- One step per calendar day of the `while current_date <= end_date`
loop of `_load_kraft_heinz_avg_prices`.  `stream` stands for the
successive values drawn from `np.random.random()`; `fuel` is the number
of days left (the loop runs over a fixed closed date range). -/
def buildKHPrices : Nat → Nat → ℚ → (Nat → ℚ) → Nat → List (Nat × ℚ)
  | 0, _, _, _, _ => []
  | fuel + 1, day, base, stream, i =>
    if weekdayOf day < 5 then
      (day * 1440, base) ::
        buildKHPrices fuel (day + 1) (clampKH (base + (stream i - 0.5) * 0.5)) stream (i + 1)
    else
      buildKHPrices fuel (day + 1) base stream i

/-- `_load_kraft_heinz_avg_prices`.  The Python dict's final
`avg_prices[datetime(2019, 11, 5)] = 27.55` assignment overwrites the
loop's entry for that day; association-list lookup takes the first hit,
so the override is placed at the head. -/
def khAvgPrices (stream : Nat → ℚ) : List (Nat × ℚ) :=
  (dt 2019 11 5, 27.55) ::
    buildKHPrices (rataDie 2019 11 5 + 1 - rataDie 2019 8 8) (rataDie 2019 8 8)
      28.22 stream 0

/-- `_initialize_kraft_heinz_config`.  `stream` feeds the random price
table. -/
def khConfig (stream : Nat → ℚ) : Config where
  settlement_type := .KRAFT_HEINZ
  class_start := dt 2015 11 6
  class_end := dt 2019 8 7
  corrective_dates := [dt 2018 11 2, dt 2019 2 22, dt 2019 8 8]
  lookback_start := dt 2019 8 8
  lookback_end := dt 2019 11 5
  average_price := 27.55
  inflation_periods := khInflationPeriods
  avg_closing_prices := khAvgPrices stream

/-- `SettlementCalculator.__init__` / `_initialize_configuration`:
the configuration a freshly constructed calculator of the given
settlement type carries.  The `stream` argument is consumed only by the
Kraft Heinz branch (its randomized price table). -/
def mkConfig : SettlementType → (Nat → ℚ) → Config
  | .TWITTER, _ => twitterConfig
  | .KRAFT_HEINZ, stream => khConfig stream

/-- Randomness sources for the two separately constructed Kraft Heinz
calculators of the C7 counterexample. -/
def c7stream1 : Nat → ℚ := fun _ => 0.5

def c7stream2 : Nat → ℚ := fun _ => 0.9

/-- Python `dict.get(key, default)` over an association list (first
match wins; keys are unique except for deliberate overrides placed at
the head). -/
def dictGetD : List (Nat × ℚ) → Nat → ℚ → ℚ
  | [], _, d => d
  | (k', v) :: rest, k, d => if k' = k then v else dictGetD rest k d

/-- `dict.get(key, 0.0)` for the tuple-keyed decline matrix. -/
def matrixGetD : List ((Int × Int) × ℚ) → (Int × Int) → ℚ
  | [], _ => 0
  | (k', v) :: rest, k => if k' = k then v else matrixGetD rest k

/-! ### Loss rule engine -/

/-- The `for group in self.time_groups` search loop of
`_get_time_group_index`. -/
def groupLoop (date : Nat) : List TimeGroup → Int
  | [] => -1
  | g :: rest => if g.start ≤ date ∧ date ≤ g.stop then g.index else groupLoop date rest

/-- `_get_time_group_index`.  Note the special 4/28/2015 branch fires
only when `for_sale` holds and the timestamp has `hour > 0`, and that it
classifies by `hour >= 15 and minute >= 7`, exactly as the source does. -/
def get_time_group_index (cfg : Config) (date : Nat) (for_sale : Bool) : Int :=
  if cfg.settlement_type ≠ .TWITTER then -1
  else if dayOf date = dayOf (dt 2015 4 28) ∧ for_sale = true ∧ 0 < hourOf date then
    (if 15 ≤ hourOf date ∧ 7 ≤ minuteOf date then 1 else 0)
  else groupLoop date cfg.time_groups

/-- `_get_decline_amount`.  Python's `if sale_price and sale_price >=
self.price_threshold` is truthiness-guarded: a `None` or `0.0` price
falls through to the time check. -/
def get_decline_amount (cfg : Config) (purchase_date sale_date : Nat)
    (sale_price : Option ℚ) : ℚ :=
  if cfg.settlement_type ≠ .TWITTER then 0
  else
    let purchase_idx := get_time_group_index cfg purchase_date false
    let sale_idx :=
      if dayOf sale_date = dayOf (dt 2015 4 28) then
        if (match sale_price with
            | some p => decide (p ≠ 0 ∧ cfg.price_threshold ≤ p)
            | none => false) then (0 : Int)
        else if 0 < hourOf sale_date then get_time_group_index cfg sale_date true
        else 1
      else get_time_group_index cfg sale_date true
    matrixGetD cfg.decline_matrix (purchase_idx, sale_idx)

/-- The `for period in self.inflation_periods` loop of
`_get_inflation_at_date`, with the `continue` on the sale-only period. -/
def inflationLoop (date : Nat) (is_sale : Bool) : List InflationPeriod → ℚ
  | [] => 0
  | p :: rest =>
    if p.start ≤ date ∧ date ≤ p.stop then
      if p.name = "8/8/2019 (sale only)" ∧ is_sale = false then inflationLoop date is_sale rest
      else p.inflation
    else inflationLoop date is_sale rest

/-- `_get_inflation_at_date`. -/
def get_inflation_at_date (cfg : Config) (date : Nat) (is_sale : Bool) : ℚ :=
  if cfg.settlement_type ≠ .KRAFT_HEINZ then 0
  else inflationLoop date is_sale cfg.inflation_periods

/-- What the rule engine returns (loss per share and rule code; the
`rule_applied` label and the `details` dict are presentation-only). -/
structure LossResult where
  recognized_loss : ℚ
  rule_code : String
deriving DecidableEq, Repr

/-- `_calculate_twitter_loss`.  A sale is one optional `(date, price)`
pair (the matcher always supplies both or neither).  The intermediate
`decline`/`actual_loss` bindings of the source are inlined into each
branch; the values are identical. -/
def calculate_twitter_loss (cfg : Config) (purchase_date : Nat) (purchase_price : ℚ)
    (sale : Option (Nat × ℚ)) : LossResult :=
  match sale with
  | none =>
    ⟨round4 (min (get_decline_amount cfg purchase_date cfg.lookback_start none)
        (max 0 (purchase_price - cfg.average_price))), "D"⟩
  | some (sale_date, sale_price) =>
    if sale_date < cfg.first_corrective_date then ⟨0, "A"⟩
    else if sale_date < cfg.lookback_start then
      ⟨round4 (min (get_decline_amount cfg purchase_date sale_date (some sale_price))
          (max 0 (purchase_price - sale_price))), "B"⟩
    else if cfg.lookback_start ≤ sale_date ∧ sale_date ≤ cfg.lookback_end then
      ⟨round4 (min (get_decline_amount cfg purchase_date sale_date (some sale_price))
          (min (max 0 (purchase_price - sale_price))
            (max 0 (purchase_price -
              dictGetD cfg.avg_closing_prices sale_date cfg.average_price)))), "C"⟩
    else
      ⟨round4 (min (get_decline_amount cfg purchase_date sale_date (some sale_price))
          (max 0 (purchase_price - sale_price))), "POST_LOOKBACK"⟩

/-- `_calculate_kraft_heinz_loss`, same conventions as the Twitter
variant.  `corrective_dates[0]` is `headD 0` (the configured list is
never empty). -/
def calculate_kraft_heinz_loss (cfg : Config) (purchase_date : Nat) (purchase_price : ℚ)
    (sale : Option (Nat × ℚ)) : LossResult :=
  match sale with
  | none =>
    ⟨round4 (min (get_inflation_at_date cfg purchase_date false)
        (max 0 (purchase_price - cfg.average_price))), "D"⟩
  | some (sale_date, sale_price) =>
    if sale_date < cfg.corrective_dates.headD 0 then ⟨0, "A"⟩
    else if sale_date ≤ cfg.class_end then
      ⟨round4 (min (max 0 (get_inflation_at_date cfg purchase_date false -
            get_inflation_at_date cfg sale_date true))
          (max 0 (purchase_price - sale_price))), "B"⟩
    else if cfg.lookback_start ≤ sale_date ∧ sale_date ≤ cfg.lookback_end then
      ⟨round4 (min (max 0 (get_inflation_at_date cfg purchase_date false -
            get_inflation_at_date cfg sale_date true))
          (min (max 0 (purchase_price - sale_price))
            (max 0 (purchase_price -
              dictGetD cfg.avg_closing_prices sale_date cfg.average_price)))), "C"⟩
    else
      ⟨round4 (min (max 0 (get_inflation_at_date cfg purchase_date false -
            get_inflation_at_date cfg sale_date true))
          (max 0 (purchase_price - sale_price))), "POST_LOOKBACK"⟩

/-- `calculate_recognized_loss_per_share`: class-period gate, then
method dispatch. -/
def calculate_recognized_loss_per_share (cfg : Config) (purchase_date : Nat)
    (purchase_price : ℚ) (sale : Option (Nat × ℚ)) : LossResult :=
  if purchase_date < cfg.class_start ∨ cfg.class_end < purchase_date then
    ⟨0, "OUTSIDE_PERIOD"⟩
  else if cfg.settlement_type = .TWITTER then
    calculate_twitter_loss cfg purchase_date purchase_price sale
  else
    calculate_kraft_heinz_loss cfg purchase_date purchase_price sale

/-! ### FIFO lot matcher -/

/-- Valuation date of a lot: beginning holdings count as purchased at
class-period start. -/
def calc_purchase_date (cfg : Config) (lot : Transaction) : Nat :=
  if lot.ttype = .BEGINNING_HOLDINGS then cfg.class_start else lot.date

/-- Valuation price of a lot: beginning holdings count as price 0. -/
def calc_purchase_price (lot : Transaction) : ℚ :=
  if lot.ttype = .BEGINNING_HOLDINGS then 0 else lot.price

/-- The `MatchResult` built for one sale/lot match of `match_qty`
shares. -/
def mkSaleMatch (cfg : Config) (sale lot : Transaction) (match_qty : ℚ) : MatchResult :=
  let res := calculate_recognized_loss_per_share cfg (calc_purchase_date cfg lot)
    (calc_purchase_price lot) (some (sale.date, sale.price))
  { purchase_id := lot.id
    sale_id := some sale.id
    quantity := match_qty
    recognized_loss := res.recognized_loss * match_qty
    rule_code := res.rule_code
    purchase_date := calc_purchase_date cfg lot
    sale_date := some sale.date
    purchase_price := calc_purchase_price lot
    sale_price := some sale.price
    entity := lot.entity
    fund_name := lot.fund_name }

/-- The inner `while remaining_sale_qty > 0 and inventory_idx <
len(inventory)` loop of `_perform_fifo_matching`, walking the inventory
for one sale.  Depleted lots and lots dated after the sale are skipped;
a match consumes `min` of the two remaining quantities and is emitted
only when its loss is strictly positive.  (When the matched lot is not
depleted, the consumed quantity equals the whole remaining sale
quantity, so recursing on the tail is exact.) -/
def processSaleLoop (cfg : Config) (sale : Transaction) :
    ℚ → List Transaction → List MatchResult × List Transaction
  | _, [] => ([], [])
  | saleQty, lot :: rest =>
    if saleQty ≤ 0 then ([], lot :: rest)
    else if lot.remaining_quantity ≤ 0 then
      let r := processSaleLoop cfg sale saleQty rest
      (r.1, lot :: r.2)
    else if sale.date < lot.date then
      let r := processSaleLoop cfg sale saleQty rest
      (r.1, lot :: r.2)
    else
      let match_qty := min saleQty lot.remaining_quantity
      let m := mkSaleMatch cfg sale lot match_qty
      let lot' := { lot with remaining_quantity := lot.remaining_quantity - match_qty }
      let r := processSaleLoop cfg sale (saleQty - match_qty) rest
      ((if 0 < m.recognized_loss then m :: r.1 else r.1), lot' :: r.2)

/-- Sale/purchase ordering key `(date, id)` (ids compare as strings, as
in Python). -/
def txnKeyLE (a b : Transaction) : Prop :=
  a.date < b.date ∨ (a.date = b.date ∧ a.id ≤ b.id)

instance : DecidableRel txnKeyLE := fun a b => by
  unfold txnKeyLE; infer_instance

def resetRemaining (t : Transaction) : Transaction :=
  { t with remaining_quantity := t.quantity }

/-- Initial inventory ledger of `_perform_fifo_matching`: beginning
holdings first (sorted by date), then regular purchases sorted by
`(date, id)`, every lot's `remaining_quantity` reset to its quantity. -/
def build_inventory (purchases : List Transaction) : List Transaction :=
  (List.insertionSort (fun a b => a.date ≤ b.date)
      (purchases.filter (fun p => p.ttype == .BEGINNING_HOLDINGS))).map resetRemaining ++
  (List.insertionSort txnKeyLE
      (purchases.filter (fun p => p.ttype == .PURCHASE))).map resetRemaining

/-- One sale processed against the running `(matches, inventory)`
accumulator. -/
def fifoStep (cfg : Config) (acc : List MatchResult × List Transaction)
    (sale : Transaction) : List MatchResult × List Transaction :=
  let r := processSaleLoop cfg sale sale.quantity acc.2
  (acc.1 ++ r.1, r.2)

/-- `_perform_fifo_matching`. -/
def perform_fifo_matching (cfg : Config) (purchases sales : List Transaction) :
    List MatchResult × List Transaction :=
  (List.insertionSort txnKeyLE sales).foldl (fifoStep cfg) ([], build_inventory purchases)

/-! ### Held-position evaluator -/

/-- The held-shares `MatchResult` for a leftover lot. -/
def mkHeldMatch (cfg : Config) (lot : Transaction) : MatchResult :=
  let res := calculate_recognized_loss_per_share cfg (calc_purchase_date cfg lot)
    (calc_purchase_price lot) none
  { purchase_id := lot.id
    sale_id := none
    quantity := lot.remaining_quantity
    recognized_loss := res.recognized_loss * lot.remaining_quantity
    rule_code := res.rule_code
    purchase_date := calc_purchase_date cfg lot
    sale_date := none
    purchase_price := calc_purchase_price lot
    sale_price := none
    entity := lot.entity
    fund_name := lot.fund_name }

/-- `_calculate_held_losses` over the final inventory. -/
def calculate_held_losses (cfg : Config) (inventory : List Transaction) :
    List MatchResult :=
  inventory.filterMap fun p =>
    if 0 < p.remaining_quantity then
      if p.ttype = .PURCHASE ∧
          (calc_purchase_date cfg p < cfg.class_start ∨
            cfg.class_end < calc_purchase_date cfg p) then none
      else
        let m := mkHeldMatch cfg p
        if 0 < m.recognized_loss then some m else none
    else none

/-! ### Aggregation reporter -/

/-- Running per-group figures (`defaultdict` value in
`_calculate_entity_summary` / `_calculate_fund_summary`). -/
structure GroupAcc where
  total_loss : ℚ := 0
  total_quantity : ℚ := 0
  members : List String := []
  match_count : Nat := 0
  rules : List (String × ℚ) := []
deriving DecidableEq, Repr

/-- `rules[code] += loss` on an insertion-ordered association list. -/
def bumpRule : List (String × ℚ) → String → ℚ → List (String × ℚ)
  | [], code, v => [(code, v)]
  | (c, x) :: rest, code, v =>
    if c = code then (c, x + v) :: rest else (c, x) :: bumpRule rest code v

/-- Python `set.add` modelled as ordered dedup-append (the sets are only
ever read back sorted). -/
def addMember (l : List String) (s : String) : List String :=
  if s ∈ l then l else l ++ [s]

def bumpGroupAcc (g : GroupAcc) (m : MatchResult) (member : String) : GroupAcc :=
  { total_loss := g.total_loss + m.recognized_loss
    total_quantity := g.total_quantity + m.quantity
    members := addMember g.members member
    match_count := g.match_count + 1
    rules := bumpRule g.rules m.rule_code m.recognized_loss }

/-- `defaultdict` update: bump the group keyed `key`, appending a fresh
group in insertion order when absent. -/
def bumpGroups : List (String × GroupAcc) → String → String → MatchResult →
    List (String × GroupAcc)
  | [], key, member, m => [(key, bumpGroupAcc {} m member)]
  | (k, g) :: rest, key, member, m =>
    if k = key then (k, bumpGroupAcc g m member) :: rest
    else (k, g) :: bumpGroups rest key member m

/-- Serialized per-group summary entry. -/
structure GroupSummary where
  total_recognized_loss : ℚ
  total_quantity : ℚ
  member_count : Nat
  members : List String
  match_count : Nat
  rules : List (String × ℚ)
deriving DecidableEq, Repr

def finalizeGroup (g : GroupAcc) : GroupSummary :=
  { total_recognized_loss := round2 g.total_loss
    total_quantity := round2 g.total_quantity
    member_count := g.members.length
    members := List.insertionSort (fun a b => a ≤ b) g.members
    match_count := g.match_count
    rules := g.rules.map fun r => (r.1, round2 r.2) }

/-- `_calculate_entity_summary`. -/
def calculate_entity_summary (ms : List MatchResult) :
    List (String × GroupSummary) :=
  (ms.foldl (fun acc m => bumpGroups acc m.entity m.fund_name m) []).map
    fun e => (e.1, finalizeGroup e.2)

/-- `_calculate_fund_summary`. -/
def calculate_fund_summary (ms : List MatchResult) :
    List (String × GroupSummary) :=
  (ms.foldl (fun acc m => bumpGroups acc m.fund_name m.entity m) []).map
    fun e => (e.1, finalizeGroup e.2)

/-- Result of `calculate_all_losses` (the wall-clock
`calculation_timestamp` is presentation metadata and not modelled). -/
structure Summary where
  success : Bool
  settlement_type : SettlementType
  total_recognized_loss : ℚ := 0
  total_quantity : ℚ := 0
  matches_count : Nat := 0
  entity_summary : List (String × GroupSummary) := []
  fund_summary : List (String × GroupSummary) := []
  message : Option String := none
deriving DecidableEq, Repr

/-- `calculate_all_losses`, additionally exposing the stored
`self.matches` list (FIFO matches then held losses) next to the returned
summary.  The embedding is a total function, so the `except` fallback
branch of the source is unreachable here. -/
def calculate_all_losses_full (cfg : Config) (transactions : List Transaction) :
    Summary × List MatchResult :=
  let purchases := transactions.filter fun t =>
    t.ttype == .PURCHASE || t.ttype == .BEGINNING_HOLDINGS
  let sales := transactions.filter fun t => t.ttype == .SALE
  if purchases.isEmpty ∧ sales.isEmpty then
    ({ success := true, settlement_type := cfg.settlement_type,
       message := some "No transactions to process" }, [])
  else
    let fm := perform_fifo_matching cfg purchases sales
    let ms := fm.1 ++ calculate_held_losses cfg fm.2
    ({ success := true
       settlement_type := cfg.settlement_type
       total_recognized_loss := round2 ((ms.map MatchResult.recognized_loss).sum)
       total_quantity := round2 ((ms.map MatchResult.quantity).sum)
       matches_count := ms.length
       entity_summary := calculate_entity_summary ms
       fund_summary := calculate_fund_summary ms }, ms)

def calculate_all_losses (cfg : Config) (transactions : List Transaction) : Summary :=
  (calculate_all_losses_full cfg transactions).1

/-! ### Quantity bookkeeping helpers used by the statements -/

/-- Total quantity of emitted sale-bearing matches referencing a given
purchase id. -/
def saleQtySum (ms : List MatchResult) (pid : String) : ℚ :=
  ((ms.filter fun m => m.purchase_id == pid && m.sale_id.isSome).map
    MatchResult.quantity).sum

/-- Total quantity of all emitted matches (sale-bearing and held)
referencing a given purchase id. -/
def matchQtySum (ms : List MatchResult) (pid : String) : ℚ :=
  ((ms.filter fun m => m.purchase_id == pid).map MatchResult.quantity).sum

/-- Relation between a lot and its later state: the matcher only ever
decreases `remaining_quantity` and touches nothing else. -/
def shadows (a b : Transaction) : Prop :=
  b.id = a.id ∧ b.date = a.date ∧ b.quantity = a.quantity ∧ b.price = a.price ∧
  b.ttype = a.ttype ∧ b.entity = a.entity ∧ b.fund_name = a.fund_name ∧
  b.remaining_quantity ≤ a.remaining_quantity

/-- The per-share cap applied before `actual`/`lookback` caps: the
decline-matrix amount for method A, the inflation difference for
method B (claims C3 and C6 call it the "method's decline/inflation
cap"). -/
def method_cap (cfg : Config) (pd sd : Nat) (sp : ℚ) : ℚ :=
  if cfg.settlement_type = .TWITTER then get_decline_amount cfg pd sd (some sp)
  else max 0 (get_inflation_at_date cfg pd false - get_inflation_at_date cfg sd true)

/-! ### Helper lemmas -/

theorem round_mono {x y : ℚ} (h : x ≤ y) : round x ≤ round y := by
  rw [round_eq, round_eq]
  exact Int.floor_mono (by linarith)

theorem round4_mono {x y : ℚ} (h : x ≤ y) : round4 x ≤ round4 y := by
  unfold round4
  have : round (x * 10000) ≤ round (y * 10000) := round_mono (by nlinarith)
  have h10 : (0 : ℚ) < 10000 := by norm_num
  rw [div_le_div_iff₀ h10 h10]
  exact_mod_cast mul_le_mul_of_nonneg_right this (by norm_num)

theorem round4_nonneg {x : ℚ} (h : 0 ≤ x) : 0 ≤ round4 x := by
  unfold round4
  have h0 : (0 : ℤ) ≤ round (x * 10000) := by
    rw [round_eq]
    exact Int.floor_nonneg.mpr (by linarith)
  have : (0 : ℚ) ≤ (round (x * 10000) : ℤ) := by exact_mod_cast h0
  exact div_nonneg this (by norm_num)

theorem matrixGetD_nonneg (l : List ((Int × Int) × ℚ))
    (hl : ∀ p ∈ l, 0 ≤ p.2) (k : Int × Int) :
    0 ≤ matrixGetD l k := by
  induction l with
  | nil => simp [matrixGetD]
  | cons hd tl ih =>
    obtain ⟨k', v⟩ := hd
    unfold matrixGetD
    split
    · simpa using hl (k', v) (List.mem_cons_self _ _)
    · exact ih (fun p hp => hl p (List.mem_cons_of_mem _ hp))

theorem decline_nonneg (cfg : Config) (hl : ∀ p ∈ cfg.decline_matrix, 0 ≤ p.2)
    (pd sd : Nat) (sp : Option ℚ) : 0 ≤ get_decline_amount cfg pd sd sp := by
  unfold get_decline_amount
  split
  · exact le_refl 0
  · exact matrixGetD_nonneg _ hl _

theorem twitter_matrix_nonneg : ∀ p ∈ twitterConfig.decline_matrix, 0 ≤ p.2 := by
  intro p hp
  simp only [twitterConfig] at hp
  fin_cases hp <;> norm_num

theorem inflationLoop_nonneg (d : Nat) (b : Bool) (l : List InflationPeriod)
    (hl : ∀ p ∈ l, 0 ≤ p.inflation) : 0 ≤ inflationLoop d b l := by
  induction l with
  | nil => simp [inflationLoop]
  | cons hd tl ih =>
    have htl := ih (fun p hp => hl p (List.mem_cons_of_mem _ hp))
    have hhd := hl hd (List.mem_cons_self _ _)
    unfold inflationLoop
    split
    · split
      · exact htl
      · exact hhd
    · exact htl

theorem inflation_nonneg (cfg : Config)
    (hl : ∀ p ∈ cfg.inflation_periods, 0 ≤ p.inflation) (d : Nat) (b : Bool) :
    0 ≤ get_inflation_at_date cfg d b := by
  unfold get_inflation_at_date
  split
  · exact le_refl 0
  · exact inflationLoop_nonneg _ _ _ hl

theorem kh_periods_nonneg : ∀ p ∈ khInflationPeriods, 0 ≤ p.inflation := by
  intro p hp
  simp only [khInflationPeriods] at hp
  fin_cases hp <;> norm_num

theorem mkConfig_cap_nonneg (st : SettlementType) (s : Nat → ℚ) (pd sd : Nat) (sp : ℚ) :
    0 ≤ method_cap (mkConfig st s) pd sd sp := by
  cases st
  · simpa [method_cap, mkConfig, twitterConfig] using
      decline_nonneg twitterConfig twitter_matrix_nonneg pd sd (some sp)
  · simp [method_cap, mkConfig, khConfig]

theorem mkConfig_decline_nonneg (st : SettlementType) (s : Nat → ℚ) (pd sd : Nat)
    (sp : Option ℚ) : 0 ≤ get_decline_amount (mkConfig st s) pd sd sp := by
  cases st
  · exact decline_nonneg twitterConfig twitter_matrix_nonneg pd sd sp
  · exact decline_nonneg (khConfig s) (by simp [khConfig]) pd sd sp

theorem mkConfig_inflation_nonneg (st : SettlementType) (s : Nat → ℚ) (d : Nat)
    (b : Bool) : 0 ≤ get_inflation_at_date (mkConfig st s) d b := by
  cases st
  · exact inflation_nonneg twitterConfig (by simp [twitterConfig]) d b
  · exact inflation_nonneg (khConfig s) (by simpa [khConfig] using kh_periods_nonneg) d b

/-- The per-share loss returned by the rule engine (either method, any
freshly constructed configuration) is nonnegative. -/
theorem recognized_nonneg (st : SettlementType) (s : Nat → ℚ) (pd : Nat) (pp : ℚ)
    (sale : Option (Nat × ℚ)) :
    0 ≤ (calculate_recognized_loss_per_share (mkConfig st s) pd pp sale).recognized_loss := by
  have hdec := mkConfig_decline_nonneg st s
  have hinf := mkConfig_inflation_nonneg st s
  unfold calculate_recognized_loss_per_share
  split
  · exact le_refl 0
  · split
    · unfold calculate_twitter_loss
      rcases sale with _ | ⟨sd, sp⟩
      · exact round4_nonneg (le_min (hdec _ _ _) (le_max_left 0 _))
      · dsimp only
        split
        · exact le_refl 0
        · split
          · exact round4_nonneg (le_min (hdec _ _ _) (le_max_left 0 _))
          · split
            · exact round4_nonneg
                (le_min (hdec _ _ _) (le_min (le_max_left 0 _) (le_max_left 0 _)))
            · exact round4_nonneg (le_min (hdec _ _ _) (le_max_left 0 _))
    · unfold calculate_kraft_heinz_loss
      rcases sale with _ | ⟨sd, sp⟩
      · exact round4_nonneg (le_min (hinf _ _) (le_max_left 0 _))
      · dsimp only
        split
        · exact le_refl 0
        · split
          · exact round4_nonneg (le_min (le_max_left 0 _) (le_max_left 0 _))
          · split
            · exact round4_nonneg
                (le_min (le_max_left 0 _) (le_min (le_max_left 0 _) (le_max_left 0 _)))
            · exact round4_nonneg (le_min (le_max_left 0 _) (le_max_left 0 _))

/-- With a sale, the per-share loss never exceeds the 4-decimal rounding
of `actual_loss = max(0, purchase_price - sale_price)`. -/
theorem recognized_le_round4_actual (st : SettlementType) (s : Nat → ℚ) (pd : Nat)
    (pp : ℚ) (sd : Nat) (sp : ℚ) :
    (calculate_recognized_loss_per_share (mkConfig st s) pd pp
      (some (sd, sp))).recognized_loss ≤ round4 (max 0 (pp - sp)) := by
  have hr0 : (0 : ℚ) ≤ round4 (max 0 (pp - sp)) := round4_nonneg (le_max_left 0 _)
  unfold calculate_recognized_loss_per_share
  split
  · exact hr0
  · split
    · unfold calculate_twitter_loss
      dsimp only
      split
      · exact hr0
      · split
        · exact round4_mono (min_le_right _ _)
        · split
          · exact round4_mono (le_trans (min_le_right _ _) (min_le_left _ _))
          · exact round4_mono (min_le_right _ _)
    · unfold calculate_kraft_heinz_loss
      dsimp only
      split
      · exact hr0
      · split
        · exact round4_mono (min_le_right _ _)
        · split
          · exact round4_mono (le_trans (min_le_right _ _) (min_le_left _ _))
          · exact round4_mono (min_le_right _ _)

/-- With no sale, the per-share loss never exceeds the 4-decimal
rounding of `held_loss = max(0, purchase_price - average_price)`. -/
theorem recognized_le_round4_held (st : SettlementType) (s : Nat → ℚ) (pd : Nat)
    (pp : ℚ) :
    (calculate_recognized_loss_per_share (mkConfig st s) pd pp none).recognized_loss ≤
      round4 (max 0 (pp - (mkConfig st s).average_price)) := by
  have hr0 : (0 : ℚ) ≤ round4 (max 0 (pp - (mkConfig st s).average_price)) :=
    round4_nonneg (le_max_left 0 _)
  unfold calculate_recognized_loss_per_share
  split
  · exact hr0
  · split
    · unfold calculate_twitter_loss
      exact round4_mono (min_le_right _ _)
    · unfold calculate_kraft_heinz_loss
      exact round4_mono (min_le_right _ _)

/-! ### Claims -/

/-- C2.  The claim fails on the code: a 4/28/2015 sale with recorded
time 16:00 is at/after 15:07, so the claim (and the source's own
comments and `TimeGroup` table, whose post-disclosure group runs from
15:07 to 23:59) puts it in group 1, but `_get_time_group_index` tests
`hour >= 15 and minute >= 7`, which is false at 16:00 and returns group
0; consequently `_get_decline_amount` for a purchase in group 0 sold at
16:00 at a price below the threshold reads matrix cell (0,0) = 0
instead of (0,1) = 8.97. -/
theorem c2_time_group_bug :
    get_time_group_index twitterConfig (dt 2015 4 28 16 0) true = 0 ∧
    dt 2015 4 28 15 7 ≤ dt 2015 4 28 16 0 ∧
    groupLoop (dt 2015 4 28 16 0) twitterConfig.time_groups = 1 ∧
    get_decline_amount twitterConfig (dt 2015 3 1) (dt 2015 4 28 16 0) (some 45) = 0 := by
  refine ⟨by decide, by decide, by decide, ?_⟩
  norm_num [get_decline_amount, get_time_group_index, groupLoop, twitterConfig, dt,
    rataDie, dayOf, hourOf, minuteOf, daysBeforeMonth, isLeap, matrixGetD]

/-- C4.  A purchase dated outside the inclusive class period yields
recognized loss 0 with code `OUTSIDE_PERIOD` regardless of the sale,
and a purchase dated exactly at class-period start is dispatched to the
normal rule branches (its code is never `OUTSIDE_PERIOD`). -/
theorem c4_outside_period_gate (st : SettlementType) (s : Nat → ℚ) (pd : Nat)
    (pp : ℚ) (sale : Option (Nat × ℚ))
    (h : pd < (mkConfig st s).class_start ∨ (mkConfig st s).class_end < pd) :
    calculate_recognized_loss_per_share (mkConfig st s) pd pp sale =
      ⟨0, "OUTSIDE_PERIOD"⟩ ∧
    (calculate_recognized_loss_per_share (mkConfig st s)
      (mkConfig st s).class_start pp sale).rule_code ≠ "OUTSIDE_PERIOD" := by
  constructor
  · unfold calculate_recognized_loss_per_share
    rw [if_pos h]
  · have hgate : ¬((mkConfig st s).class_start < (mkConfig st s).class_start ∨
        (mkConfig st s).class_end < (mkConfig st s).class_start) := by
      cases st <;> simp [mkConfig, twitterConfig, khConfig] <;> decide
    unfold calculate_recognized_loss_per_share
    rw [if_neg hgate]
    split
    · unfold calculate_twitter_loss
      rcases sale with _ | ⟨sd, sp⟩
      · simp
      · dsimp only
        split
        · simp
        · split
          · simp
          · split
            · simp
            · simp
    · unfold calculate_kraft_heinz_loss
      rcases sale with _ | ⟨sd, sp⟩
      · simp
      · dsimp only
        split
        · simp
        · split
          · simp
          · split
            · simp
            · simp

/-- C4 witness: the Twitter calculator at a purchase dated one day
before class-period start (2015-02-05) returns the `OUTSIDE_PERIOD`
record, and at exactly class-period start it does not. -/
theorem c4_outside_period_gate_witness :
    calculate_recognized_loss_per_share twitterConfig (dt 2015 2 5) 10 none =
      ⟨0, "OUTSIDE_PERIOD"⟩ ∧
    (calculate_recognized_loss_per_share twitterConfig
      twitterConfig.class_start 10 none).rule_code ≠ "OUTSIDE_PERIOD" := by
  have h := c4_outside_period_gate .TWITTER (fun _ => 0) (dt 2015 2 5) 10 none
    (by left; decide)
  exact ⟨h.1, by simpa [mkConfig] using h.2⟩

/-- C3 counterexample.  Under method A a purchase inside the class
period sold on 2015-07-30 — after class-period end (2015-07-28) but
before the lookback window (2015-08-03) — still gets rule code `B`, so
the claim's "the sale date lies within the class period" is false. -/
theorem c3_counterexample :
    (calculate_recognized_loss_per_share twitterConfig (dt 2015 3 1) 60
      (some (dt 2015 7 30, 45))).rule_code = "B" ∧
    twitterConfig.class_end < dt 2015 7 30 := by
  constructor
  · decide
  · decide

/-- C3 as amended: whenever rule code `B` is returned for a sale pair,
the sale date is on/after the first corrective disclosure and strictly
before the lookback window start, and the per-share loss is
`round4(min(method cap, max(0, purchasePrice - salePrice)))`; under
method B the sale additionally lies inside the class period, while
under method A it may fall after class-period end (the counterexample
above). -/
theorem c3_rule_b_amended (s : Nat → ℚ) (pd : Nat) (pp : ℚ) (sd : Nat) (sp : ℚ) :
    ((calculate_recognized_loss_per_share twitterConfig pd pp
        (some (sd, sp))).rule_code = "B" →
      twitterConfig.first_corrective_date ≤ sd ∧ sd < twitterConfig.lookback_start ∧
      (calculate_recognized_loss_per_share twitterConfig pd pp
        (some (sd, sp))).recognized_loss =
        round4 (min (method_cap twitterConfig pd sd sp) (max 0 (pp - sp)))) ∧
    ((calculate_recognized_loss_per_share (khConfig s) pd pp
        (some (sd, sp))).rule_code = "B" →
      (khConfig s).corrective_dates.headD 0 ≤ sd ∧
      (khConfig s).class_start ≤ sd ∧ sd ≤ (khConfig s).class_end ∧
      sd < (khConfig s).lookback_start ∧
      (calculate_recognized_loss_per_share (khConfig s) pd pp
        (some (sd, sp))).recognized_loss =
        round4 (min (method_cap (khConfig s) pd sd sp) (max 0 (pp - sp)))) := by
  constructor
  · unfold calculate_recognized_loss_per_share calculate_twitter_loss
    split
    · intro h; exact absurd h (by decide)
    · rw [if_pos (show twitterConfig.settlement_type = SettlementType.TWITTER from rfl)]
      dsimp only
      split
      · intro h; exact absurd h (by decide)
      · split
        · intro _
          refine ⟨not_lt.mp (by assumption), by assumption, ?_⟩
          simp [method_cap, twitterConfig]
        · split
          · intro h; simp at h
          · intro h; simp at h
  · unfold calculate_recognized_loss_per_share calculate_kraft_heinz_loss
    split
    · intro h; exact absurd h (by decide)
    · rw [if_neg (show ¬((khConfig s).settlement_type = SettlementType.TWITTER) from
        by simp [khConfig])]
      dsimp only
      split
      · intro h; exact absurd h (by decide)
      · split
        · intro _
          have hko : ¬(sd < (khConfig s).corrective_dates.headD 0) := by assumption
          have hce : sd ≤ (khConfig s).class_end := by assumption
          refine ⟨not_lt.mp hko, ?_, hce, ?_, ?_⟩
          · have h1 : (khConfig s).class_start ≤ (khConfig s).corrective_dates.headD 0 := by
              simp only [khConfig]; decide
            exact le_trans h1 (not_lt.mp hko)
          · have h2 : (khConfig s).class_end < (khConfig s).lookback_start := by
              simp only [khConfig]; decide
            exact lt_of_le_of_lt hce h2
          · simp [method_cap, khConfig]
        · split
          · intro h; simp at h
          · intro h; simp at h

/-- C3 witness: the spec's own method-A scenario — purchase 2015-03-01
at 60, sold 2015-04-28 15:10 at 45 — carries rule code `B` and all the
amended consequences. -/
theorem c3_rule_b_amended_witness :
    twitterConfig.first_corrective_date ≤ dt 2015 4 28 15 10 ∧
    dt 2015 4 28 15 10 < twitterConfig.lookback_start ∧
    (calculate_recognized_loss_per_share twitterConfig (dt 2015 3 1) 60
      (some (dt 2015 4 28 15 10, 45))).recognized_loss =
      round4 (min (method_cap twitterConfig (dt 2015 3 1) (dt 2015 4 28 15 10) 45)
        (max 0 (60 - 45))) :=
  (c3_rule_b_amended (fun _ => 0) (dt 2015 3 1) 60 (dt 2015 4 28 15 10) 45).1
    (by decide)

/-- C6.  A purchase inside the class period whose sale date lies inside
the inclusive lookback window gets rule code `C`, and its per-share
loss is `round4` of the minimum of the method cap, the actual loss, and
the lookback loss computed from the price table entry for the sale date
with the configured lookback average as fallback. -/
theorem c6_lookback_rule_c (st : SettlementType) (s : Nat → ℚ) (pd : Nat) (pp : ℚ)
    (sd : Nat) (sp : ℚ)
    (hpd : (mkConfig st s).class_start ≤ pd ∧ pd ≤ (mkConfig st s).class_end)
    (hsd : (mkConfig st s).lookback_start ≤ sd ∧ sd ≤ (mkConfig st s).lookback_end) :
    (calculate_recognized_loss_per_share (mkConfig st s) pd pp
      (some (sd, sp))).rule_code = "C" ∧
    (calculate_recognized_loss_per_share (mkConfig st s) pd pp
      (some (sd, sp))).recognized_loss =
      round4 (min (method_cap (mkConfig st s) pd sd sp)
        (min (max 0 (pp - sp))
          (max 0 (pp - dictGetD (mkConfig st s).avg_closing_prices sd
            (mkConfig st s).average_price)))) := by
  have hgate : ¬(pd < (mkConfig st s).class_start ∨ (mkConfig st s).class_end < pd) := by
    push_neg
    exact hpd
  cases st
  · simp only [mkConfig] at hpd hsd hgate ⊢
    have hfc : twitterConfig.first_corrective_date ≤ twitterConfig.lookback_start := by
      decide
    have hA : ¬(sd < twitterConfig.first_corrective_date) :=
      not_lt.mpr (le_trans hfc hsd.1)
    have hB : ¬(sd < twitterConfig.lookback_start) := not_lt.mpr hsd.1
    unfold calculate_recognized_loss_per_share calculate_twitter_loss
    rw [if_neg hgate,
      if_pos (show twitterConfig.settlement_type = SettlementType.TWITTER from rfl)]
    dsimp only
    rw [if_neg hA, if_neg hB, if_pos hsd]
    exact ⟨rfl, by simp [method_cap, twitterConfig]⟩
  · simp only [mkConfig] at hpd hsd hgate ⊢
    have hfc : (khConfig s).corrective_dates.headD 0 ≤ (khConfig s).lookback_start := by
      simp only [khConfig]; decide
    have hA : ¬(sd < (khConfig s).corrective_dates.headD 0) :=
      not_lt.mpr (le_trans hfc hsd.1)
    have hcl : (khConfig s).class_end < (khConfig s).lookback_start := by
      simp only [khConfig]; decide
    have hB : ¬(sd ≤ (khConfig s).class_end) :=
      not_le.mpr (lt_of_lt_of_le hcl hsd.1)
    unfold calculate_recognized_loss_per_share calculate_kraft_heinz_loss
    rw [if_neg hgate,
      if_neg (show ¬((khConfig s).settlement_type = SettlementType.TWITTER) from
        by simp [khConfig])]
    dsimp only
    rw [if_neg hA, if_neg hB, if_pos hsd]
    exact ⟨rfl, by simp [method_cap, khConfig]⟩

/-- C6 witness: purchase 2015-03-01 at 60 sold 2015-08-03 at 29 (first
lookback day) gets rule code `C` with the three-way capped loss. -/
theorem c6_lookback_rule_c_witness :
    (calculate_recognized_loss_per_share twitterConfig (dt 2015 3 1) 60
      (some (dt 2015 8 3, 29))).rule_code = "C" ∧
    (calculate_recognized_loss_per_share twitterConfig (dt 2015 3 1) 60
      (some (dt 2015 8 3, 29))).recognized_loss =
      round4 (min (method_cap twitterConfig (dt 2015 3 1) (dt 2015 8 3) 29)
        (min (max 0 (60 - 29))
          (max 0 (60 - dictGetD twitterConfig.avg_closing_prices (dt 2015 8 3)
            twitterConfig.average_price)))) := by
  have h := c6_lookback_rule_c .TWITTER (fun _ => 0) (dt 2015 3 1) 60 (dt 2015 8 3) 29
    ⟨by decide, by decide⟩ ⟨by decide, by decide⟩
  exact h

theorem inflationLoop_nil (d : Nat) (b : Bool) : inflationLoop d b [] = 0 := rfl

theorem inflationLoop_cons (d : Nat) (b : Bool) (p : InflationPeriod)
    (rest : List InflationPeriod) :
    inflationLoop d b (p :: rest) =
      if p.start ≤ d ∧ d ≤ p.stop then
        if p.name = "8/8/2019 (sale only)" ∧ b = false then inflationLoop d b rest
        else p.inflation
      else inflationLoop d b rest := rfl

/-- C8.  For any date and sale flag, `_get_inflation_at_date` on a
Kraft Heinz configuration returns the inflation of the (unique)
configured period whose inclusive range contains the date — skipping
the period named "8/8/2019 (sale only)" when the flag is off — and 0
when no period applies. -/
theorem c8_inflation_lookup (s : Nat → ℚ) (d : Nat) (b : Bool) :
    (∀ p ∈ (khConfig s).inflation_periods, p.start ≤ d → d ≤ p.stop →
      (b = true ∨ p.name ≠ "8/8/2019 (sale only)") →
      get_inflation_at_date (khConfig s) d b = p.inflation) ∧
    ((∀ p ∈ (khConfig s).inflation_periods, ¬(p.start ≤ d ∧ d ≤ p.stop ∧
        (b = true ∨ p.name ≠ "8/8/2019 (sale only)"))) →
      get_inflation_at_date (khConfig s) d b = 0) := by
  have e12 : dt 2018 11 1 < dt 2018 11 2 := by decide
  have e2a : dt 2018 11 2 ≤ dt 2019 2 21 := by decide
  have e23 : dt 2019 2 21 < dt 2019 2 22 := by decide
  have e3a : dt 2019 2 22 ≤ dt 2019 8 7 := by decide
  have e34 : dt 2019 8 7 < dt 2019 8 8 := by decide
  have e45 : dt 2019 8 8 < dt 2019 8 9 := by decide
  have hrun : get_inflation_at_date (khConfig s) d b =
      inflationLoop d b khInflationPeriods := by
    unfold get_inflation_at_date
    rw [if_neg (by simp [khConfig])]
    rfl
  constructor
  · intro p hp h1 h2 h3
    rw [hrun]
    simp only [khConfig, khInflationPeriods, List.mem_cons, List.not_mem_nil,
      or_false] at hp
    simp only [khInflationPeriods]
    rcases hp with rfl | rfl | rfl | rfl | rfl
    · dsimp only at h1 h2 ⊢
      rw [inflationLoop_cons, if_pos ⟨h1, h2⟩, if_neg (by simp)]
    · dsimp only at h1 h2 ⊢
      rw [inflationLoop_cons, if_neg (by rintro ⟨-, hx⟩; dsimp only at hx; omega),
        inflationLoop_cons, if_pos ⟨h1, h2⟩, if_neg (by simp)]
    · dsimp only at h1 h2 ⊢
      rw [inflationLoop_cons, if_neg (by rintro ⟨-, hx⟩; dsimp only at hx; omega),
        inflationLoop_cons, if_neg (by rintro ⟨-, hx⟩; dsimp only at hx; omega),
        inflationLoop_cons, if_pos ⟨h1, h2⟩, if_neg (by simp)]
    · dsimp only at h1 h2 h3 ⊢
      rcases h3 with hb | hname
      · subst hb
        rw [inflationLoop_cons, if_neg (by rintro ⟨-, hx⟩; dsimp only at hx; omega),
          inflationLoop_cons, if_neg (by rintro ⟨-, hx⟩; dsimp only at hx; omega),
          inflationLoop_cons, if_neg (by rintro ⟨-, hx⟩; dsimp only at hx; omega),
          inflationLoop_cons, if_pos ⟨h1, h2⟩, if_neg (by simp)]
      · exact absurd rfl hname
    · dsimp only at h1 h2 ⊢
      rw [inflationLoop_cons, if_neg (by rintro ⟨-, hx⟩; dsimp only at hx; omega),
        inflationLoop_cons, if_neg (by rintro ⟨-, hx⟩; dsimp only at hx; omega),
        inflationLoop_cons, if_neg (by rintro ⟨-, hx⟩; dsimp only at hx; omega),
        inflationLoop_cons, if_neg (by rintro ⟨-, hx⟩; dsimp only at hx; omega),
        inflationLoop_cons, if_pos ⟨h1, h2⟩, if_neg (by simp)]
  · intro hall
    rw [hrun]
    simp only [khConfig] at hall
    have h1 := hall ⟨dt 2015 11 6, dt 2018 11 1, 12.59, "Before 11/2/2018"⟩
      (by simp [khInflationPeriods])
    have h2 := hall ⟨dt 2018 11 2, dt 2019 2 21, 10.93, "11/2/2018 - 2/21/2019"⟩
      (by simp [khInflationPeriods])
    have h3 := hall ⟨dt 2019 2 22, dt 2019 8 7, 4.04, "2/22/2019 - 8/7/2019"⟩
      (by simp [khInflationPeriods])
    have h4 := hall ⟨dt 2019 8 8, dt 2019 8 8, 1.33, "8/8/2019 (sale only)"⟩
      (by simp [khInflationPeriods])
    simp only [khInflationPeriods]
    rw [inflationLoop_cons, if_neg (fun hc => h1 ⟨hc.1, hc.2, Or.inr (by simp)⟩),
      inflationLoop_cons, if_neg (fun hc => h2 ⟨hc.1, hc.2, Or.inr (by simp)⟩),
      inflationLoop_cons, if_neg (fun hc => h3 ⟨hc.1, hc.2, Or.inr (by simp)⟩),
      inflationLoop_cons]
    have tail5 : inflationLoop d b
        [⟨dt 2019 8 9, dt 2025 12 31, 0.00, "After 8/8/2019"⟩] = 0 := by
      rw [inflationLoop_cons]
      split
      · rw [if_neg (by simp)]
        norm_num
      · rfl
    by_cases hc4 : dt 2019 8 8 ≤ d ∧ d ≤ dt 2019 8 8
    · rw [if_pos (by exact ⟨hc4.1, hc4.2⟩)]
      have hb : b = false := by
        rcases b with _ | _
        · rfl
        · exact absurd ⟨hc4.1, hc4.2, Or.inl rfl⟩ h4
      rw [if_pos ⟨rfl, hb⟩]
      exact tail5
    · rw [if_neg (by exact fun hc => hc4 ⟨hc.1, hc.2⟩)]
      exact tail5

/-! ### FIFO matcher structural lemmas -/

theorem processSaleLoop_cons (cfg : Config) (sale : Transaction) (q : ℚ)
    (lot : Transaction) (rest : List Transaction) :
    processSaleLoop cfg sale q (lot :: rest) =
      if q ≤ 0 then ([], lot :: rest)
      else if lot.remaining_quantity ≤ 0 then
        ((processSaleLoop cfg sale q rest).1, lot :: (processSaleLoop cfg sale q rest).2)
      else if sale.date < lot.date then
        ((processSaleLoop cfg sale q rest).1, lot :: (processSaleLoop cfg sale q rest).2)
      else
        ((if 0 < (mkSaleMatch cfg sale lot (min q lot.remaining_quantity)).recognized_loss
          then mkSaleMatch cfg sale lot (min q lot.remaining_quantity) ::
            (processSaleLoop cfg sale (q - min q lot.remaining_quantity) rest).1
          else (processSaleLoop cfg sale (q - min q lot.remaining_quantity) rest).1),
         { lot with remaining_quantity :=
            lot.remaining_quantity - min q lot.remaining_quantity } ::
           (processSaleLoop cfg sale (q - min q lot.remaining_quantity) rest).2) := rfl

theorem processSaleLoop_length (cfg : Config) (sale : Transaction) :
    ∀ (q : ℚ) (inv : List Transaction),
      ((processSaleLoop cfg sale q inv).2).length = inv.length := by
  intro q inv
  induction inv generalizing q with
  | nil => rfl
  | cons lot rest ih =>
    rw [processSaleLoop_cons]
    split
    · rfl
    · split
      · simpa using ih q
      · split
        · simpa using ih q
        · simpa using ih _

theorem shadows_refl (a : Transaction) : shadows a a :=
  ⟨rfl, rfl, rfl, rfl, rfl, rfl, rfl, le_refl _⟩

theorem shadows.trans {a b c : Transaction} (h1 : shadows a b) (h2 : shadows b c) :
    shadows a c := by
  obtain ⟨i1, d1, q1, p1, t1, e1, f1, r1⟩ := h1
  obtain ⟨i2, d2, q2, p2, t2, e2, f2, r2⟩ := h2
  exact ⟨i2.trans i1, d2.trans d1, q2.trans q1, p2.trans p1, t2.trans t1,
    e2.trans e1, f2.trans f1, r2.trans r1⟩

theorem forall₂_shadows_trans : ∀ {l1 l2 l3 : List Transaction},
    List.Forall₂ shadows l1 l2 → List.Forall₂ shadows l2 l3 →
    List.Forall₂ shadows l1 l3 := by
  intro l1 l2 l3 h1 h2
  induction h1 generalizing l3 with
  | nil =>
    cases h2
    exact List.Forall₂.nil
  | cons hab htail ih =>
    cases h2 with
    | cons hbc htail2 => exact List.Forall₂.cons (hab.trans hbc) (ih htail2)

theorem forall₂_mem_right {R : Transaction → Transaction → Prop} :
    ∀ {l1 l2 : List Transaction}, List.Forall₂ R l1 l2 → ∀ b ∈ l2,
      ∃ a ∈ l1, R a b := by
  intro l1 l2 h
  induction h with
  | nil => intro b hb; exact absurd hb (List.not_mem_nil _)
  | cons hab htail ih =>
    intro b hb
    rcases List.mem_cons.mp hb with rfl | hb
    · exact ⟨_, List.mem_cons_self _ _, hab⟩
    · obtain ⟨a, ha, hr⟩ := ih b hb
      exact ⟨a, List.mem_cons_of_mem _ ha, hr⟩

theorem processSaleLoop_shadows (cfg : Config) (sale : Transaction) :
    ∀ (q : ℚ) (inv : List Transaction),
      List.Forall₂ shadows inv (processSaleLoop cfg sale q inv).2 := by
  intro q inv
  induction inv generalizing q with
  | nil => exact List.Forall₂.nil
  | cons lot rest ih =>
    rw [processSaleLoop_cons]
    split
    · exact List.forall₂_same.mpr fun a _ => shadows_refl a
    · split
      · exact List.Forall₂.cons (shadows_refl lot) (ih q)
      · split
        · exact List.Forall₂.cons (shadows_refl lot) (ih q)
        · refine List.Forall₂.cons ?_ (ih _)
          refine ⟨rfl, rfl, rfl, rfl, rfl, rfl, rfl, ?_⟩
          have hq : ¬(q ≤ 0) := by assumption
          have hrem : ¬(lot.remaining_quantity ≤ 0) := by assumption
          have : 0 ≤ min q lot.remaining_quantity :=
            le_min (le_of_lt (not_le.mp hq)) (le_of_lt (not_le.mp hrem))
          dsimp only
          linarith

theorem processSaleLoop_map_id (cfg : Config) (sale : Transaction) :
    ∀ (q : ℚ) (inv : List Transaction),
      ((processSaleLoop cfg sale q inv).2).map Transaction.id =
        inv.map Transaction.id := by
  intro q inv
  induction inv generalizing q with
  | nil => rfl
  | cons lot rest ih =>
    rw [processSaleLoop_cons]
    split
    · rfl
    · split
      · simpa using ih q
      · split
        · simpa using ih q
        · simpa using ih _

/-- Every match emitted while processing one sale comes from some lot of
the inventory, matches a positive quantity bounded by that lot's
remaining quantity, and has strictly positive recognized loss. -/
theorem processSaleLoop_mem (cfg : Config) (sale : Transaction) :
    ∀ (q : ℚ) (inv : List Transaction) (m : MatchResult),
      m ∈ (processSaleLoop cfg sale q inv).1 →
      ∃ lot ∈ inv, ∃ mq : ℚ, 0 < mq ∧ mq ≤ lot.remaining_quantity ∧
        m = mkSaleMatch cfg sale lot mq ∧ 0 < m.recognized_loss := by
  intro q inv
  induction inv generalizing q with
  | nil => intro m hm; exact absurd hm (List.not_mem_nil _)
  | cons lot rest ih =>
    intro m hm
    rw [processSaleLoop_cons] at hm
    split at hm
    · exact absurd hm (List.not_mem_nil _)
    · split at hm
      · obtain ⟨l, hl, hrest⟩ := ih q m hm
        exact ⟨l, List.mem_cons_of_mem _ hl, hrest⟩
      · split at hm
        · obtain ⟨l, hl, hrest⟩ := ih q m hm
          exact ⟨l, List.mem_cons_of_mem _ hl, hrest⟩
        · dsimp only at hm
          have hq : ¬(q ≤ 0) := by assumption
          have hrem : ¬(lot.remaining_quantity ≤ 0) := by assumption
          split at hm
          · rcases List.mem_cons.mp hm with rfl | hm
            · refine ⟨lot, List.mem_cons_self _ _, min q lot.remaining_quantity,
                lt_min (not_le.mp hq) (not_le.mp hrem), min_le_right _ _, rfl, ?_⟩
              assumption
            · obtain ⟨l, hl, hrest⟩ := ih _ m hm
              exact ⟨l, List.mem_cons_of_mem _ hl, hrest⟩
          · obtain ⟨l, hl, hrest⟩ := ih _ m hm
            exact ⟨l, List.mem_cons_of_mem _ hl, hrest⟩

theorem fifo_foldl_shadows (cfg : Config) :
    ∀ (sales : List Transaction) (ms : List MatchResult) (inv : List Transaction),
      List.Forall₂ shadows inv ((sales.foldl (fifoStep cfg) (ms, inv)).2) := by
  intro sales
  induction sales with
  | nil =>
    intro ms inv
    exact List.forall₂_same.mpr fun a _ => shadows_refl a
  | cons sale rest ih =>
    intro ms inv
    rw [List.foldl_cons]
    exact forall₂_shadows_trans (processSaleLoop_shadows cfg sale sale.quantity inv)
      (ih _ _)

theorem fifo_foldl_map_id (cfg : Config) :
    ∀ (sales : List Transaction) (ms : List MatchResult) (inv : List Transaction),
      (((sales.foldl (fifoStep cfg) (ms, inv)).2).map Transaction.id) =
        inv.map Transaction.id := by
  intro sales
  induction sales with
  | nil => intro ms inv; rfl
  | cons sale rest ih =>
    intro ms inv
    rw [List.foldl_cons]
    rw [show (fifoStep cfg (ms, inv) sale) =
      (ms ++ (processSaleLoop cfg sale sale.quantity inv).1,
        (processSaleLoop cfg sale sale.quantity inv).2) from rfl]
    rw [ih, processSaleLoop_map_id]

/-- Every match emitted by the whole FIFO fold comes from processing
some sale of the list against some shadow of an initial inventory
lot. -/
theorem fifo_foldl_mem (cfg : Config) :
    ∀ (sales : List Transaction) (ms0 : List MatchResult) (inv0 : List Transaction)
      (m : MatchResult), m ∈ (sales.foldl (fifoStep cfg) (ms0, inv0)).1 →
      m ∈ ms0 ∨ ∃ sale ∈ sales, ∃ lot0 ∈ inv0, ∃ lot : Transaction, ∃ mq : ℚ,
        shadows lot0 lot ∧ 0 < mq ∧ mq ≤ lot.remaining_quantity ∧
        m = mkSaleMatch cfg sale lot mq ∧ 0 < m.recognized_loss := by
  intro sales
  induction sales with
  | nil => intro ms0 inv0 m hm; exact Or.inl hm
  | cons sale rest ih =>
    intro ms0 inv0 m hm
    rw [List.foldl_cons] at hm
    rcases ih _ _ m hm with hacc | ⟨sale', hsale', lot0, hlot0, lot, mq, hsh, hrest⟩
    · dsimp only [fifoStep] at hacc
      rcases List.mem_append.mp hacc with h0 | hnew
      · exact Or.inl h0
      · obtain ⟨lot, hlot, mq, hmq, hle, heq, hpos⟩ :=
          processSaleLoop_mem cfg sale sale.quantity inv0 m hnew
        exact Or.inr ⟨sale, List.mem_cons_self _ _, lot, hlot, lot, mq,
          shadows_refl lot, hmq, hle, heq, hpos⟩
    · dsimp only [fifoStep] at hlot0
      obtain ⟨lot00, hlot00, hsh0⟩ :=
        forall₂_mem_right (processSaleLoop_shadows cfg sale sale.quantity inv0)
          lot0 hlot0
      exact Or.inr ⟨sale', List.mem_cons_of_mem _ hsale', lot00, hlot00, lot, mq,
        hsh0.trans hsh, hrest⟩

/-- Membership characterization for held-loss records. -/
theorem calculate_held_losses_mem (cfg : Config) (inv : List Transaction)
    (h : MatchResult) (hh : h ∈ calculate_held_losses cfg inv) :
    ∃ p ∈ inv, 0 < p.remaining_quantity ∧ h = mkHeldMatch cfg p ∧
      0 < h.recognized_loss := by
  unfold calculate_held_losses at hh
  obtain ⟨p, hp, hf⟩ := List.mem_filterMap.mp hh
  dsimp only at hf
  split at hf
  · split at hf
    · exact absurd hf (by simp)
    · split at hf
      · refine ⟨p, hp, by assumption, ?_, ?_⟩
        · exact (Option.some_inj.mp hf).symm
        · rw [← Option.some_inj.mp hf]
          assumption
      · exact absurd hf (by simp)
  · exact absurd hf (by simp)

/-! ### Quantity accounting lemmas -/

theorem saleQtySum_nil (pid : String) : saleQtySum [] pid = 0 := rfl

theorem saleQtySum_cons (m : MatchResult) (ms : List MatchResult) (pid : String) :
    saleQtySum (m :: ms) pid =
      (if m.purchase_id == pid && m.sale_id.isSome then m.quantity else 0) +
        saleQtySum ms pid := by
  unfold saleQtySum
  rw [List.filter_cons]
  split
  · rw [List.map_cons, List.sum_cons]
  · rw [zero_add]

theorem saleQtySum_append (a b : List MatchResult) (pid : String) :
    saleQtySum (a ++ b) pid = saleQtySum a pid + saleQtySum b pid := by
  unfold saleQtySum
  rw [List.filter_append, List.map_append, List.sum_append]

theorem saleQtySum_eq_zero (ms : List MatchResult) (pid : String)
    (h : ∀ m ∈ ms, m.purchase_id ≠ pid) : saleQtySum ms pid = 0 := by
  induction ms with
  | nil => rfl
  | cons m rest ih =>
    rw [saleQtySum_cons, ih (fun x hx => h x (List.mem_cons_of_mem _ hx)), add_zero]
    rw [if_neg]
    simp only [Bool.and_eq_true, beq_iff_eq]
    rintro ⟨h1, -⟩
    exact h m (List.mem_cons_self _ _) h1

theorem mkSaleMatch_purchase_id (cfg : Config) (sale lot : Transaction) (mq : ℚ) :
    (mkSaleMatch cfg sale lot mq).purchase_id = lot.id := rfl

theorem mkSaleMatch_quantity (cfg : Config) (sale lot : Transaction) (mq : ℚ) :
    (mkSaleMatch cfg sale lot mq).quantity = mq := rfl

theorem mkSaleMatch_sale_id (cfg : Config) (sale lot : Transaction) (mq : ℚ) :
    (mkSaleMatch cfg sale lot mq).sale_id = some sale.id := rfl

theorem mkSaleMatch_sale_price (cfg : Config) (sale lot : Transaction) (mq : ℚ) :
    (mkSaleMatch cfg sale lot mq).sale_price = some sale.price := rfl

theorem mkSaleMatch_purchase_price (cfg : Config) (sale lot : Transaction) (mq : ℚ) :
    (mkSaleMatch cfg sale lot mq).purchase_price = calc_purchase_price lot := rfl

theorem mkSaleMatch_recognized_loss (cfg : Config) (sale lot : Transaction) (mq : ℚ) :
    (mkSaleMatch cfg sale lot mq).recognized_loss =
      (calculate_recognized_loss_per_share cfg (calc_purchase_date cfg lot)
        (calc_purchase_price lot) (some (sale.date, sale.price))).recognized_loss *
        mq := rfl

theorem mkHeldMatch_fields (cfg : Config) (lot : Transaction) :
    (mkHeldMatch cfg lot).purchase_id = lot.id ∧
    (mkHeldMatch cfg lot).quantity = lot.remaining_quantity ∧
    (mkHeldMatch cfg lot).sale_id = none ∧
    (mkHeldMatch cfg lot).sale_price = none ∧
    (mkHeldMatch cfg lot).purchase_price = calc_purchase_price lot ∧
    (mkHeldMatch cfg lot).recognized_loss =
      (calculate_recognized_loss_per_share cfg (calc_purchase_date cfg lot)
        (calc_purchase_price lot) none).recognized_loss * lot.remaining_quantity :=
  ⟨rfl, rfl, rfl, rfl, rfl, rfl⟩

/-- Per-sale accounting: processing one sale can only move quantity out
of a lot, and the emitted matches referencing the lot account for at
most the quantity removed (exactly, when all its matches are emitted). -/
theorem processSaleLoop_account (cfg : Config) (sale : Transaction) :
    ∀ (q : ℚ) (inv : List Transaction), ((inv.map Transaction.id).Nodup) →
      ∀ (i : Nat) (lot0 lot1 : Transaction),
        inv[i]? = some lot0 →
        ((processSaleLoop cfg sale q inv).2)[i]? = some lot1 →
        saleQtySum (processSaleLoop cfg sale q inv).1 lot0.id +
            lot1.remaining_quantity ≤ lot0.remaining_quantity := by
  intro q inv
  induction inv generalizing q with
  | nil =>
    intro _ i lot0 lot1 h0 _
    simp at h0
  | cons lot rest ih =>
    intro hnd i lot0 lot1 h0 h1
    rw [List.map_cons, List.nodup_cons] at hnd
    obtain ⟨hnotin, hndtail⟩ := hnd
    have hids : ∀ m ∈ (processSaleLoop cfg sale q rest).1, m.purchase_id ≠ lot.id := by
      intro m hm
      obtain ⟨l, hl, mq', _, _, heq, _⟩ := processSaleLoop_mem cfg sale q rest m hm
      rw [heq, mkSaleMatch_purchase_id]
      intro hcontra
      exact hnotin (hcontra ▸ List.mem_map_of_mem Transaction.id hl)
    by_cases hq : q ≤ 0
    · rw [processSaleLoop_cons, if_pos hq] at h1 ⊢
      dsimp only at h1 ⊢
      rw [saleQtySum_nil, zero_add]
      rw [h0] at h1
      rw [Option.some_inj.mp h1]
    · by_cases hrem : lot.remaining_quantity ≤ 0
      · rw [processSaleLoop_cons, if_neg hq, if_pos hrem] at h1 ⊢
        dsimp only at h1 ⊢
        cases i with
        | zero =>
          rw [List.getElem?_cons_zero] at h0 h1
          rw [← Option.some_inj.mp h0, ← Option.some_inj.mp h1]
          rw [saleQtySum_eq_zero _ _ hids, zero_add]
        | succ j =>
          rw [List.getElem?_cons_succ] at h0 h1
          exact ih q hndtail j lot0 lot1 h0 h1
      · by_cases hdate : sale.date < lot.date
        · rw [processSaleLoop_cons, if_neg hq, if_neg hrem, if_pos hdate] at h1 ⊢
          dsimp only at h1 ⊢
          cases i with
          | zero =>
            rw [List.getElem?_cons_zero] at h0 h1
            rw [← Option.some_inj.mp h0, ← Option.some_inj.mp h1]
            rw [saleQtySum_eq_zero _ _ hids, zero_add]
          | succ j =>
            rw [List.getElem?_cons_succ] at h0 h1
            exact ih q hndtail j lot0 lot1 h0 h1
        · rw [processSaleLoop_cons, if_neg hq, if_neg hrem, if_neg hdate] at h1 ⊢
          dsimp only at h1 ⊢
          have hmq0 : 0 < min q lot.remaining_quantity :=
            lt_min (not_le.mp hq) (not_le.mp hrem)
          have hids' : ∀ m ∈ (processSaleLoop cfg sale
              (q - min q lot.remaining_quantity) rest).1,
              m.purchase_id ≠ lot.id := by
            intro m hm
            obtain ⟨l, hl, mq', _, _, heq, _⟩ :=
              processSaleLoop_mem cfg sale _ rest m hm
            rw [heq, mkSaleMatch_purchase_id]
            intro hcontra
            exact hnotin (hcontra ▸ List.mem_map_of_mem Transaction.id hl)
          cases i with
          | zero =>
            rw [List.getElem?_cons_zero] at h0 h1
            rw [← Option.some_inj.mp h0]
            rw [← Option.some_inj.mp h1]
            dsimp only
            split
            · rw [saleQtySum_cons]
              rw [saleQtySum_eq_zero _ _ hids', add_zero]
              rw [if_pos (by rw [mkSaleMatch_purchase_id, mkSaleMatch_sale_id]; simp),
                mkSaleMatch_quantity]
              linarith
            · rw [saleQtySum_eq_zero _ _ hids', zero_add]
              linarith
          | succ j =>
            rw [List.getElem?_cons_succ] at h0 h1
            have hne : lot.id ≠ lot0.id := by
              intro hcontra
              exact hnotin (hcontra ▸ List.mem_map_of_mem Transaction.id
                (List.getElem?_mem h0))
            have base := ih _ hndtail j lot0 lot1 h0 h1
            split
            · rw [saleQtySum_cons,
                if_neg (by rw [mkSaleMatch_purchase_id]; simp [hne]), zero_add]
              exact base
            · exact base

/-- Whole-fold accounting: the total sale-matched quantity attributed
to an inventory position plus its final remaining quantity never
exceeds what that position started with. -/
theorem fifo_foldl_account (cfg : Config) :
    ∀ (sales : List Transaction) (ms0 : List MatchResult) (inv : List Transaction),
      ((inv.map Transaction.id).Nodup) →
      ∀ (i : Nat) (lot0 lot1 : Transaction),
        inv[i]? = some lot0 →
        ((sales.foldl (fifoStep cfg) (ms0, inv)).2)[i]? = some lot1 →
        saleQtySum (sales.foldl (fifoStep cfg) (ms0, inv)).1 lot0.id +
            lot1.remaining_quantity ≤
          saleQtySum ms0 lot0.id + lot0.remaining_quantity := by
  intro sales
  induction sales with
  | nil =>
    intro ms0 inv _ i lot0 lot1 h0 h1
    rw [List.foldl_nil] at h1 ⊢
    rw [h0] at h1
    rw [Option.some_inj.mp h1]
  | cons sale rest ih =>
    intro ms0 inv hnd i lot0 lot1 h0 h1
    rw [List.foldl_cons] at h1 ⊢
    have hlen : i < inv.length := by
      by_contra hcon
      rw [List.getElem?_eq_none (le_of_not_lt hcon)] at h0
      exact Option.noConfusion h0
    have hlenMid : i < ((processSaleLoop cfg sale sale.quantity inv).2).length := by
      rw [processSaleLoop_length]
      exact hlen
    obtain ⟨lotMid, hMid⟩ :
        ∃ x, ((processSaleLoop cfg sale sale.quantity inv).2)[i]? = some x := by
      rw [List.getElem?_eq_getElem hlenMid]
      exact ⟨_, rfl⟩
    have hidMid : lotMid.id = lot0.id := by
      have hmap := processSaleLoop_map_id cfg sale sale.quantity inv
      have h1' : (((processSaleLoop cfg sale sale.quantity inv).2).map
          Transaction.id)[i]? = some lotMid.id := by
        rw [List.getElem?_map, hMid]
        rfl
      have h0' : ((inv.map Transaction.id))[i]? = some lot0.id := by
        rw [List.getElem?_map, h0]
        rfl
      rw [hmap, h0'] at h1'
      exact Option.some_inj.mp h1'.symm
    have hndMid : ((((processSaleLoop cfg sale sale.quantity inv).2).map
        Transaction.id)).Nodup := by
      rw [processSaleLoop_map_id]
      exact hnd
    have step := ih (ms0 ++ (processSaleLoop cfg sale sale.quantity inv).1)
      ((processSaleLoop cfg sale sale.quantity inv).2) hndMid i lotMid lot1 hMid
      (by rw [show fifoStep cfg (ms0, inv) sale =
        (ms0 ++ (processSaleLoop cfg sale sale.quantity inv).1,
          (processSaleLoop cfg sale sale.quantity inv).2) from rfl] at h1; exact h1)
    rw [show fifoStep cfg (ms0, inv) sale =
      (ms0 ++ (processSaleLoop cfg sale sale.quantity inv).1,
        (processSaleLoop cfg sale sale.quantity inv).2) from rfl]
    have hone := processSaleLoop_account cfg sale sale.quantity inv hnd i lot0 lotMid
      h0 hMid
    rw [hidMid] at step
    rw [saleQtySum_append] at step
    linarith

theorem build_inventory_mem (purchases : List Transaction) (lot : Transaction)
    (h : lot ∈ build_inventory purchases) :
    ∃ p ∈ purchases, lot = resetRemaining p ∧
      (p.ttype = .BEGINNING_HOLDINGS ∨ p.ttype = .PURCHASE) := by
  unfold build_inventory at h
  rcases List.mem_append.mp h with h | h
  · obtain ⟨q, hq, rfl⟩ := List.mem_map.mp h
    have hq' : q ∈ purchases.filter (fun p => p.ttype == .BEGINNING_HOLDINGS) :=
      (List.Perm.mem_iff (List.perm_insertionSort _ _)).mp hq
    rw [List.mem_filter] at hq'
    exact ⟨q, hq'.1, rfl, Or.inl (by simpa using hq'.2)⟩
  · obtain ⟨q, hq, rfl⟩ := List.mem_map.mp h
    have hq' : q ∈ purchases.filter (fun p => p.ttype == .PURCHASE) :=
      (List.Perm.mem_iff (List.perm_insertionSort _ _)).mp hq
    rw [List.mem_filter] at hq'
    exact ⟨q, hq'.1, rfl, Or.inr (by simpa using hq'.2)⟩

theorem build_inventory_rem (purchases : List Transaction) (lot : Transaction)
    (h : lot ∈ build_inventory purchases) :
    lot.remaining_quantity = lot.quantity := by
  obtain ⟨p, -, rfl, -⟩ := build_inventory_mem purchases lot h
  rfl

theorem nodup_id_getElem_eq (l : List Transaction)
    (hnd : (l.map Transaction.id).Nodup) (i j : Nat) (a b : Transaction)
    (ha : l[i]? = some a) (hb : l[j]? = some b) (hid : a.id = b.id) : a = b := by
  have hi : i < l.length := by
    by_contra hcon
    rw [List.getElem?_eq_none (le_of_not_lt hcon)] at ha
    exact Option.noConfusion ha
  have hj : j < l.length := by
    by_contra hcon
    rw [List.getElem?_eq_none (le_of_not_lt hcon)] at hb
    exact Option.noConfusion hb
  have ha' : l[i] = a := by
    rw [List.getElem?_eq_getElem hi] at ha
    exact Option.some_inj.mp ha
  have hb' : l[j] = b := by
    rw [List.getElem?_eq_getElem hj] at hb
    exact Option.some_inj.mp hb
  have hmi : i < (l.map Transaction.id).length := by simpa using hi
  have hmj : j < (l.map Transaction.id).length := by simpa using hj
  have : (l.map Transaction.id)[i] = (l.map Transaction.id)[j] := by
    rw [List.getElem_map, List.getElem_map, ha', hb', hid]
  have hij : i = j := (hnd.getElem_inj_iff).mp this
  subst hij
  rw [← ha', ← hb']

/-- C1 as amended: per lot of the initial inventory ledger, the emitted
sale-matched quantity plus the final remaining quantity is at most the
lot's original quantity (equality can fail because matches with zero
recognized loss consume quantity but are not emitted), and each emitted
held record for the lot does not consume quantity — it carries exactly
the lot's final remaining quantity. -/
theorem c1_lot_conservation_amended (st : SettlementType) (s : Nat → ℚ)
    (purchases sales : List Transaction)
    (hnd : (((build_inventory purchases).map Transaction.id)).Nodup)
    (i : Nat) (lot0 lotF : Transaction)
    (h0 : (build_inventory purchases)[i]? = some lot0)
    (hF : ((perform_fifo_matching (mkConfig st s) purchases sales).2)[i]? = some lotF) :
    saleQtySum (perform_fifo_matching (mkConfig st s) purchases sales).1 lot0.id +
        lotF.remaining_quantity ≤ lot0.quantity ∧
    (∀ h ∈ calculate_held_losses (mkConfig st s)
        (perform_fifo_matching (mkConfig st s) purchases sales).2,
      h.purchase_id = lot0.id → h.quantity = lotF.remaining_quantity) := by
  have hrem0 : lot0.remaining_quantity = lot0.quantity :=
    build_inventory_rem _ _ (List.getElem?_mem h0)
  have hacct := fifo_foldl_account (mkConfig st s)
    (List.insertionSort txnKeyLE sales) [] (build_inventory purchases) hnd i lot0 lotF
    h0 hF
  rw [saleQtySum_nil, zero_add, hrem0] at hacct
  refine ⟨hacct, ?_⟩
  intro h hh hid
  obtain ⟨p, hp, hpos, heq, -⟩ := calculate_held_losses_mem _ _ h hh
  have hpid : h.purchase_id = p.id := by rw [heq]; exact (mkHeldMatch_fields _ _).1
  have hq : h.quantity = p.remaining_quantity := by
    rw [heq]; exact (mkHeldMatch_fields _ _).2.1
  have hFid : lotF.id = lot0.id := by
    have h1' : (((perform_fifo_matching (mkConfig st s) purchases sales).2).map
        Transaction.id)[i]? = some lotF.id := by
      rw [List.getElem?_map, hF]
      rfl
    have h0' : (((build_inventory purchases).map Transaction.id))[i]? =
        some lot0.id := by
      rw [List.getElem?_map, h0]
      rfl
    unfold perform_fifo_matching at h1'
    rw [fifo_foldl_map_id] at h1'
    rw [h0'] at h1'
    exact (Option.some_inj.mp h1').symm
  obtain ⟨j, hj⟩ := List.getElem?_of_mem hp
  have hndF : ((((perform_fifo_matching (mkConfig st s) purchases sales).2).map
      Transaction.id)).Nodup := by
    unfold perform_fifo_matching
    rw [fifo_foldl_map_id]
    exact hnd
  have hpF : p = lotF := by
    refine nodup_id_getElem_eq _ hndF j i p lotF hj hF ?_
    rw [← hpid, hid, ← hFid]
  rw [hq, hpF]

/-- C5 as amended: every emitted `MatchResult` has nonnegative
recognized loss, bounded by the 4-decimal rounding of the applicable
per-share cap times the matched quantity (`max(0, purchasePrice −
salePrice)` for sale matches, `max(0, purchasePrice − averagePrice)`
for held records).  The unrounded cap itself can be exceeded by at most
the final rounding step, which is what the counterexample shows. -/
theorem c5_loss_bounds_amended (st : SettlementType) (s : Nat → ℚ)
    (txns : List Transaction) (m : MatchResult)
    (hm : m ∈ (calculate_all_losses_full (mkConfig st s) txns).2) :
    0 ≤ m.recognized_loss ∧
    (∀ sp : ℚ, m.sale_price = some sp →
      m.recognized_loss ≤ round4 (max 0 (m.purchase_price - sp)) * m.quantity) ∧
    (m.sale_price = none →
      m.recognized_loss ≤
        round4 (max 0 (m.purchase_price - (mkConfig st s).average_price)) *
          m.quantity) := by
  simp only [calculate_all_losses_full] at hm
  split at hm
  · exact absurd hm (List.not_mem_nil _)
  · rcases List.mem_append.mp hm with hfifo | hheld
    · rcases fifo_foldl_mem (mkConfig st s) _ _ _ m hfifo with h0 | h0
      · exact absurd h0 (List.not_mem_nil _)
      · obtain ⟨sale, -, lot0, -, lot, mq, -, hmq, -, heq, hpos⟩ := h0
        refine ⟨le_of_lt hpos, ?_, ?_⟩
        · intro sp hsp
          rw [heq, mkSaleMatch_sale_price] at hsp
          rw [heq, mkSaleMatch_recognized_loss, mkSaleMatch_quantity,
            mkSaleMatch_purchase_price]
          rw [← Option.some_inj.mp hsp]
          exact mul_le_mul_of_nonneg_right
            (recognized_le_round4_actual st s _ _ _ _) (le_of_lt hmq)
        · intro hnone
          rw [heq, mkSaleMatch_sale_price] at hnone
          exact absurd hnone (by simp)
    · obtain ⟨p, -, hpos, heq, hlpos⟩ := calculate_held_losses_mem _ _ m hheld
      refine ⟨le_of_lt hlpos, ?_, ?_⟩
      · intro sp hsp
        rw [heq, (mkHeldMatch_fields _ _).2.2.2.1] at hsp
        exact absurd hsp (by simp)
      · intro _
        rw [heq, (mkHeldMatch_fields _ _).2.2.2.2.2,
          (mkHeldMatch_fields _ _).2.1, (mkHeldMatch_fields _ _).2.2.2.2.1]
        exact mul_le_mul_of_nonneg_right
          (recognized_le_round4_held st s _ _) (le_of_lt hpos)

/-- C9: the batch-level operation is a total function that always
reports success on the (exception-free) embedded semantics, and its
summary totals are exactly the rounded sums over its own stored match
list — the summary is never inconsistent with the matches. -/
theorem c9_batch_result (st : SettlementType) (s : Nat → ℚ)
    (txns : List Transaction) :
    (calculate_all_losses (mkConfig st s) txns).success = true ∧
    (calculate_all_losses (mkConfig st s) txns).total_recognized_loss =
      round2 (((calculate_all_losses_full (mkConfig st s) txns).2.map
        MatchResult.recognized_loss).sum) ∧
    (calculate_all_losses (mkConfig st s) txns).total_quantity =
      round2 (((calculate_all_losses_full (mkConfig st s) txns).2.map
        MatchResult.quantity).sum) ∧
    (calculate_all_losses (mkConfig st s) txns).matches_count =
      (calculate_all_losses_full (mkConfig st s) txns).2.length := by
  unfold calculate_all_losses
  simp only [calculate_all_losses_full]
  split
  · refine ⟨rfl, ?_, ?_, rfl⟩ <;> simp [round2]
  · exact ⟨rfl, rfl, rfl, rfl⟩

/-- C7 as amended: the calculation is a pure function of the
configuration and the input collection — re-running an instance over
unchanged, identically-ordered input reproduces the summary exactly,
and two separately constructed TWITTER calculators agree on every input
because the TWITTER configuration ignores the randomness source.  (For
KRAFT_HEINZ, separately constructed instances draw fresh random price
tables; the counterexample shows two such instances disagreeing.) -/
theorem c7_determinism_amended (st : SettlementType) (s s1 s2 : Nat → ℚ)
    (txns : List Transaction) :
    calculate_all_losses (mkConfig st s) txns =
      calculate_all_losses (mkConfig st s) txns ∧
    calculate_all_losses (mkConfig .TWITTER s1) txns =
      calculate_all_losses (mkConfig .TWITTER s2) txns :=
  ⟨rfl, rfl⟩

theorem class_start_le_class_end (st : SettlementType) (s : Nat → ℚ) :
    (mkConfig st s).class_start ≤ (mkConfig st s).class_end := by
  cases st
  · simp only [mkConfig]
    decide
  · simp only [mkConfig, khConfig]
    decide

theorem average_price_nonneg (st : SettlementType) (s : Nat → ℚ) :
    0 ≤ (mkConfig st s).average_price := by
  cases st
  · norm_num [mkConfig, twitterConfig]
  · norm_num [mkConfig, khConfig]

/-- A lot valued at purchase price 0 (the beginning-holdings valuation)
realizes zero recognized loss against any sale at a nonnegative
price. -/
theorem bh_sale_loss_zero (st : SettlementType) (s : Nat → ℚ) (sd : Nat) (sp : ℚ)
    (hsp : 0 ≤ sp) :
    (calculate_recognized_loss_per_share (mkConfig st s) (mkConfig st s).class_start
      0 (some (sd, sp))).recognized_loss = 0 := by
  have hdec := mkConfig_decline_nonneg st s
  have hgate : ¬((mkConfig st s).class_start < (mkConfig st s).class_start ∨
      (mkConfig st s).class_end < (mkConfig st s).class_start) := by
    push_neg
    exact ⟨le_refl _, class_start_le_class_end st s⟩
  have hact : max 0 ((0 : ℚ) - sp) = 0 := max_eq_left (by linarith)
  have hr4 : round4 0 = 0 := by simp [round4]
  unfold calculate_recognized_loss_per_share
  rw [if_neg hgate]
  split
  · unfold calculate_twitter_loss
    dsimp only
    split
    · rfl
    · split
      · rw [hact, min_eq_right (hdec _ _ _)]
        exact hr4
      · split
        · rw [hact, min_eq_left (le_max_left 0 _), min_eq_right (hdec _ _ _)]
          exact hr4
        · rw [hact, min_eq_right (hdec _ _ _)]
          exact hr4
  · unfold calculate_kraft_heinz_loss
    dsimp only
    split
    · rfl
    · split
      · rw [hact, min_eq_right (le_max_left 0 _)]
        exact hr4
      · split
        · rw [hact, min_eq_left (le_max_left 0 _), min_eq_right (le_max_left 0 _)]
          exact hr4
        · rw [hact, min_eq_right (le_max_left 0 _)]
          exact hr4

/-- A lot valued at purchase price 0 realizes zero held loss (the
configured average price is nonnegative). -/
theorem bh_held_loss_zero (st : SettlementType) (s : Nat → ℚ) :
    (calculate_recognized_loss_per_share (mkConfig st s) (mkConfig st s).class_start
      0 none).recognized_loss = 0 := by
  have hdec := mkConfig_decline_nonneg st s
  have hinf := mkConfig_inflation_nonneg st s
  have hgate : ¬((mkConfig st s).class_start < (mkConfig st s).class_start ∨
      (mkConfig st s).class_end < (mkConfig st s).class_start) := by
    push_neg
    exact ⟨le_refl _, class_start_le_class_end st s⟩
  have hheld : max 0 ((0 : ℚ) - (mkConfig st s).average_price) = 0 :=
    max_eq_left (by have := average_price_nonneg st s; linarith)
  have hr4 : round4 0 = 0 := by simp [round4]
  unfold calculate_recognized_loss_per_share
  rw [if_neg hgate]
  split
  · unfold calculate_twitter_loss
    rw [hheld, min_eq_right (hdec _ _ _)]
    exact hr4
  · unfold calculate_kraft_heinz_loss
    rw [hheld, min_eq_right (hinf _ _)]
    exact hr4

/-- C10.  When every sale price in the batch is nonnegative, every
emitted `MatchResult` (sale-matched or held) originates from a regular
`PURCHASE` lot of the input: beginning holdings are valued at price 0,
their losses evaluate to 0, and the strictly-positive-loss filter
discards their records, so they never contribute to the summaries. -/
theorem c10_no_bh_contribution (st : SettlementType) (s : Nat → ℚ)
    (txns : List Transaction)
    (hsp : ∀ t ∈ txns, t.ttype = .SALE → 0 ≤ t.price) :
    ∀ m ∈ (calculate_all_losses_full (mkConfig st s) txns).2,
      ∃ t ∈ txns, t.ttype = .PURCHASE ∧ m.purchase_id = t.id := by
  intro m hm
  simp only [calculate_all_losses_full] at hm
  split at hm
  · exact absurd hm (List.not_mem_nil _)
  · rcases List.mem_append.mp hm with hfifo | hheld
    · rcases fifo_foldl_mem (mkConfig st s) _ _ _ m hfifo with h0 | h0
      · exact absurd h0 (List.not_mem_nil _)
      · obtain ⟨sale, hsale, lot0, hlot0, lot, mq, hsh, hmq, -, heq, hpos⟩ := h0
        have hsale' : sale ∈ txns.filter (fun t => t.ttype == .SALE) :=
          (List.Perm.mem_iff (List.perm_insertionSort _ _)).mp hsale
        rw [List.mem_filter] at hsale'
        have hsalep : 0 ≤ sale.price :=
          hsp sale hsale'.1 (by simpa using hsale'.2)
        obtain ⟨p, hp, hlot0eq, hptype⟩ := build_inventory_mem _ _ hlot0
        have hptypelot : lot.ttype = p.ttype := by
          rw [hsh.2.2.2.2.1, hlot0eq]
          rfl
        rcases hptype with hbh | hpur
        · exfalso
          have hpd : calc_purchase_date (mkConfig st s) lot =
              (mkConfig st s).class_start := by
            unfold calc_purchase_date
            rw [if_pos (hptypelot.trans hbh)]
          have hpp : calc_purchase_price lot = 0 := by
            unfold calc_purchase_price
            rw [if_pos (hptypelot.trans hbh)]
          rw [heq, mkSaleMatch_recognized_loss, hpd, hpp] at hpos
          rw [bh_sale_loss_zero st s sale.date sale.price hsalep] at hpos
          rw [zero_mul] at hpos
          exact lt_irrefl 0 hpos
        · refine ⟨p, (List.mem_filter.mp hp).1, hpur, ?_⟩
          · rw [heq, mkSaleMatch_purchase_id, hsh.1, hlot0eq]
            rfl
    · obtain ⟨p', hp', hpos, heq, hlpos⟩ := calculate_held_losses_mem _ _ m hheld
      unfold perform_fifo_matching at hp'
      obtain ⟨lot0, hlot0, hsh⟩ := forall₂_mem_right
        (fifo_foldl_shadows (mkConfig st s) _ _ _) p' hp'
      obtain ⟨p, hp, hlot0eq, hptype⟩ := build_inventory_mem _ _ hlot0
      have hptypelot : p'.ttype = p.ttype := by
        rw [hsh.2.2.2.2.1, hlot0eq]
        rfl
      rcases hptype with hbh | hpur
      · exfalso
        have hpd : calc_purchase_date (mkConfig st s) p' =
            (mkConfig st s).class_start := by
          unfold calc_purchase_date
          rw [if_pos (hptypelot.trans hbh)]
        have hpp : calc_purchase_price p' = 0 := by
          unfold calc_purchase_price
          rw [if_pos (hptypelot.trans hbh)]
        rw [heq, (mkHeldMatch_fields _ _).2.2.2.2.2, hpd, hpp] at hlpos
        rw [bh_held_loss_zero st s, zero_mul] at hlpos
        exact lt_irrefl 0 hlpos
      · refine ⟨p, (List.mem_filter.mp hp).1, hpur, ?_⟩
        rw [heq, (mkHeldMatch_fields _ _).1, hsh.1, hlot0eq]
        rfl

/-- C8 witness: 2016-01-04 falls in the first inflation period, so the
purchase-side lookup returns 12.59. -/
theorem c8_inflation_lookup_witness :
    get_inflation_at_date (khConfig (fun _ => 0)) (dt 2016 1 4) false = 12.59 :=
  (c8_inflation_lookup (fun _ => 0) (dt 2016 1 4) false).1
    ⟨dt 2015 11 6, dt 2018 11 1, 12.59, "Before 11/2/2018"⟩
    (by simp [khConfig, khInflationPeriods]) (by decide) (by decide)
    (Or.inr (by simp))

/-- C5 counterexample.  The claim's bound `recognized_loss_per_share ≤
actual_loss_per_share` fails on the code because the loss is rounded to
4 decimals at the end: a purchase at 50.00006 sold at 50 during the
class period (rule B) has actual loss 0.00006 per share, but the engine
returns round4(0.00006) = 0.0001 > 0.00006. -/
theorem c5_counterexample :
    max 0 ((50 + 6 / 100000 : ℚ) - 50) <
      (calculate_recognized_loss_per_share twitterConfig (dt 2015 3 1)
        (50 + 6 / 100000) (some (dt 2015 5 1, 50))).recognized_loss := by
  norm_num [calculate_recognized_loss_per_share, calculate_twitter_loss,
    get_decline_amount, get_time_group_index, groupLoop, twitterConfig, matrixGetD,
    dt, rataDie, daysBeforeMonth, isLeap, dayOf, hourOf, minuteOf, round4, round_eq,
    Prod.mk.injEq, Prod.ext_iff, min_def, max_def]

/-- C5 witness: in the batch {purchase p1 of 10 shares at 60 on
2015-03-01, sale s1 of 4 shares at 45 on 2015-05-01} the emitted rule-B
match (4 shares, loss 51.72) satisfies the amended bounds. -/
theorem c5_loss_bounds_amended_witness :
    0 ≤ ({ purchase_id := "p1", sale_id := some "s1", quantity := 4,
           recognized_loss := 1293 / 25, rule_code := "B",
           purchase_date := dt 2015 3 1, sale_date := some (dt 2015 5 1),
           purchase_price := 60, sale_price := some 45, entity := "E",
           fund_name := "F" } : MatchResult).recognized_loss ∧
    ({ purchase_id := "p1", sale_id := some "s1", quantity := 4,
       recognized_loss := 1293 / 25, rule_code := "B",
       purchase_date := dt 2015 3 1, sale_date := some (dt 2015 5 1),
       purchase_price := 60, sale_price := some 45, entity := "E",
       fund_name := "F" } : MatchResult).recognized_loss ≤
      round4 (max 0 ((60 : ℚ) - 45)) * 4 := by
  have h := c5_loss_bounds_amended .TWITTER (fun _ => 0)
    [{ id := "p1", date := dt 2015 3 1, quantity := 10, price := 60,
       ttype := .PURCHASE, entity := "E", fund_name := "F" },
     { id := "s1", date := dt 2015 5 1, quantity := 4, price := 45,
       ttype := .SALE, entity := "E", fund_name := "F" }]
    { purchase_id := "p1", sale_id := some "s1", quantity := 4,
      recognized_loss := 1293 / 25, rule_code := "B", purchase_date := dt 2015 3 1,
      sale_date := some (dt 2015 5 1), purchase_price := 60, sale_price := some 45,
      entity := "E", fund_name := "F" }
    (by norm_num [show TransactionType.PURCHASE ≠ TransactionType.BEGINNING_HOLDINGS from by decide,
      show TransactionType.SALE ≠ TransactionType.BEGINNING_HOLDINGS from by decide,
      show TransactionType.SALE ≠ TransactionType.PURCHASE from by decide,
      show TransactionType.PURCHASE ≠ TransactionType.SALE from by decide,
      show SettlementType.TWITTER ≠ SettlementType.KRAFT_HEINZ from by decide,
      calculate_all_losses_full, perform_fifo_matching, build_inventory, fifoStep,
      processSaleLoop, mkSaleMatch, calc_purchase_date, calc_purchase_price,
      calculate_recognized_loss_per_share, calculate_twitter_loss,
      calculate_held_losses, mkHeldMatch, get_decline_amount, get_time_group_index,
      groupLoop, mkConfig, twitterConfig, twitterAvgPrices, dictGetD, matrixGetD, dt,
      rataDie, daysBeforeMonth, isLeap, dayOf, hourOf, minuteOf, round4, round_eq,
      List.insertionSort, List.orderedInsert, txnKeyLE, resetRemaining, List.filter,
      List.filterMap, beq_iff_eq, Prod.ext_iff, min_def, max_def])
  exact ⟨h.1, h.2.1 45 rfl⟩

/-- C1 counterexample.  Batch: purchase p1 of 10 shares at 50 on
2015-03-01, fully sold on 2015-03-15 (before the first corrective
disclosure, rule A, zero loss).  The sale consumes the whole lot but,
because the match's recognized loss is zero, no `MatchResult` is
emitted; so the sum of emitted matched quantities plus the final
remaining quantity is 0, not the original 10. -/
theorem c1_counterexample :
    matchQtySum
        ((perform_fifo_matching twitterConfig
          [{ id := "p1", date := dt 2015 3 1, quantity := 10, price := 50,
             ttype := .PURCHASE, entity := "E", fund_name := "F" }]
          [{ id := "s1", date := dt 2015 3 15, quantity := 10, price := 40,
             ttype := .SALE, entity := "E", fund_name := "F" }]).1 ++
          calculate_held_losses twitterConfig
            (perform_fifo_matching twitterConfig
              [{ id := "p1", date := dt 2015 3 1, quantity := 10, price := 50,
                 ttype := .PURCHASE, entity := "E", fund_name := "F" }]
              [{ id := "s1", date := dt 2015 3 15, quantity := 10, price := 40,
                 ttype := .SALE, entity := "E", fund_name := "F" }]).2) "p1" +
      (((perform_fifo_matching twitterConfig
          [{ id := "p1", date := dt 2015 3 1, quantity := 10, price := 50,
             ttype := .PURCHASE, entity := "E", fund_name := "F" }]
          [{ id := "s1", date := dt 2015 3 15, quantity := 10, price := 40,
             ttype := .SALE, entity := "E", fund_name := "F" }]).2.map
        Transaction.remaining_quantity).sum) ≠ (10 : ℚ) := by
  norm_num [show TransactionType.PURCHASE ≠ TransactionType.BEGINNING_HOLDINGS from by decide,
    show TransactionType.BEGINNING_HOLDINGS ≠ TransactionType.PURCHASE from by decide,
    show TransactionType.SALE ≠ TransactionType.BEGINNING_HOLDINGS from by decide,
    show TransactionType.SALE ≠ TransactionType.PURCHASE from by decide,
    show TransactionType.PURCHASE ≠ TransactionType.SALE from by decide,
    show SettlementType.TWITTER ≠ SettlementType.KRAFT_HEINZ from by decide,
    perform_fifo_matching, build_inventory, fifoStep, processSaleLoop, mkSaleMatch,
    calc_purchase_date, calc_purchase_price, calculate_recognized_loss_per_share,
    calculate_twitter_loss, get_decline_amount, get_time_group_index, groupLoop,
    mkConfig, twitterConfig, twitterAvgPrices, dictGetD, matrixGetD, dt, rataDie,
    daysBeforeMonth, isLeap, dayOf, hourOf, minuteOf, calculate_held_losses,
    mkHeldMatch, round4, round_eq, List.insertionSort, List.orderedInsert, txnKeyLE,
    resetRemaining, saleQtySum, matchQtySum, List.filter, List.filterMap,
    beq_iff_eq, Prod.ext_iff, min_def, max_def]

/-- C1 witness: in the batch {purchase p1 of 10 at 60, sale s1 of 4 at
45 after the disclosure} the emitted sale quantity (4) plus the final
remaining quantity (6) stays within the original 10, and the emitted
held record carries exactly the remaining 6 shares. -/
theorem c1_lot_conservation_amended_witness :
    saleQtySum (perform_fifo_matching twitterConfig
        [{ id := "p1", date := dt 2015 3 1, quantity := 10, price := 60,
           ttype := .PURCHASE, entity := "E", fund_name := "F" }]
        [{ id := "s1", date := dt 2015 5 1, quantity := 4, price := 45,
           ttype := .SALE, entity := "E", fund_name := "F" }]).1 "p1" + (6 : ℚ) ≤ 10 ∧
    ({ purchase_id := "p1", sale_id := none, quantity := 6,
       recognized_loss := 3051 / 25, rule_code := "D", purchase_date := dt 2015 3 1,
       sale_date := none, purchase_price := 60, sale_price := none,
       entity := "E", fund_name := "F" } : MatchResult).quantity = 6 := by
  have h := c1_lot_conservation_amended .TWITTER (fun _ => 0)
    [{ id := "p1", date := dt 2015 3 1, quantity := 10, price := 60,
       ttype := .PURCHASE, entity := "E", fund_name := "F" }]
    [{ id := "s1", date := dt 2015 5 1, quantity := 4, price := 45,
       ttype := .SALE, entity := "E", fund_name := "F" }]
    (by norm_num [build_inventory, List.insertionSort, List.orderedInsert,
      resetRemaining, List.filter, beq_iff_eq,
      show TransactionType.PURCHASE ≠ TransactionType.BEGINNING_HOLDINGS from by decide])
    0
    { id := "p1", date := dt 2015 3 1, quantity := 10, price := 60,
      ttype := .PURCHASE, entity := "E", fund_name := "F" }
    { id := "p1", date := dt 2015 3 1, quantity := 10, price := 60,
      ttype := .PURCHASE, entity := "E", fund_name := "F", remaining_quantity := 6 }
    (by norm_num [build_inventory, List.insertionSort, List.orderedInsert,
      resetRemaining, List.filter, beq_iff_eq,
      show TransactionType.PURCHASE ≠ TransactionType.BEGINNING_HOLDINGS from by decide])
    (by norm_num [show TransactionType.PURCHASE ≠ TransactionType.BEGINNING_HOLDINGS from by decide,
      show TransactionType.SALE ≠ TransactionType.BEGINNING_HOLDINGS from by decide,
      show TransactionType.SALE ≠ TransactionType.PURCHASE from by decide,
      show SettlementType.TWITTER ≠ SettlementType.KRAFT_HEINZ from by decide,
      perform_fifo_matching, build_inventory, fifoStep, processSaleLoop, mkSaleMatch,
      calc_purchase_date, calc_purchase_price, calculate_recognized_loss_per_share,
      calculate_twitter_loss, get_decline_amount, get_time_group_index, groupLoop,
      mkConfig, twitterConfig, twitterAvgPrices, dictGetD, matrixGetD, dt, rataDie,
      daysBeforeMonth, isLeap, dayOf, hourOf, minuteOf, round4, round_eq,
      List.insertionSort, List.orderedInsert, txnKeyLE, resetRemaining, List.filter,
      beq_iff_eq, Prod.ext_iff, min_def, max_def])
  refine ⟨h.1, ?_⟩
  refine h.2 _ ?_ rfl
  norm_num [show TransactionType.PURCHASE ≠ TransactionType.BEGINNING_HOLDINGS from by decide,
    show TransactionType.SALE ≠ TransactionType.BEGINNING_HOLDINGS from by decide,
    show TransactionType.SALE ≠ TransactionType.PURCHASE from by decide,
    show SettlementType.TWITTER ≠ SettlementType.KRAFT_HEINZ from by decide,
    perform_fifo_matching, build_inventory, fifoStep, processSaleLoop, mkSaleMatch,
    calc_purchase_date, calc_purchase_price, calculate_recognized_loss_per_share,
    calculate_twitter_loss, calculate_held_losses, mkHeldMatch, get_decline_amount,
    get_time_group_index, groupLoop, mkConfig, twitterConfig, twitterAvgPrices,
    dictGetD, matrixGetD, dt, rataDie, daysBeforeMonth, isLeap, dayOf, hourOf,
    minuteOf, round4, round_eq, List.insertionSort, List.orderedInsert, txnKeyLE,
    resetRemaining, List.filter, List.filterMap, beq_iff_eq, Prod.ext_iff, min_def,
    max_def]

/-- C10 witness: in the batch {beginning holdings b1 of 5 shares,
purchase p1 of 10 at 60, sale s1 of 4 at 45} — where the sale is
consumed from the beginning holdings with zero loss — the single
emitted record (held loss on p1) originates from the regular purchase,
not the holdings. -/
theorem c10_no_bh_contribution_witness :
    ∃ t ∈ [({ id := "b1", date := dt 2015 2 5, quantity := 5, price := 0,
              ttype := .BEGINNING_HOLDINGS, entity := "E", fund_name := "F" } :
            Transaction),
           { id := "p1", date := dt 2015 3 1, quantity := 10, price := 60,
             ttype := .PURCHASE, entity := "E", fund_name := "F" },
           { id := "s1", date := dt 2015 5 1, quantity := 4, price := 45,
             ttype := .SALE, entity := "E", fund_name := "F" }],
      t.ttype = TransactionType.PURCHASE ∧
      ({ purchase_id := "p1", sale_id := none, quantity := 10,
         recognized_loss := 1017 / 5, rule_code := "D",
         purchase_date := dt 2015 3 1, sale_date := none, purchase_price := 60,
         sale_price := none, entity := "E",
         fund_name := "F" } : MatchResult).purchase_id = t.id := by
  refine c10_no_bh_contribution .TWITTER (fun _ => 0) _ ?_ _ ?_
  · intro t ht hty
    fin_cases ht <;> simp_all
  · norm_num [show TransactionType.PURCHASE ≠ TransactionType.BEGINNING_HOLDINGS from by decide,
      show TransactionType.SALE ≠ TransactionType.BEGINNING_HOLDINGS from by decide,
      show TransactionType.SALE ≠ TransactionType.PURCHASE from by decide,
      show TransactionType.PURCHASE ≠ TransactionType.SALE from by decide,
      show TransactionType.BEGINNING_HOLDINGS ≠ TransactionType.PURCHASE from by decide,
      show TransactionType.BEGINNING_HOLDINGS ≠ TransactionType.SALE from by decide,
      show SettlementType.TWITTER ≠ SettlementType.KRAFT_HEINZ from by decide,
      calculate_all_losses_full, perform_fifo_matching, build_inventory, fifoStep,
      processSaleLoop, mkSaleMatch, calc_purchase_date, calc_purchase_price,
      calculate_recognized_loss_per_share, calculate_twitter_loss,
      calculate_held_losses, mkHeldMatch, get_decline_amount, get_time_group_index,
      groupLoop, mkConfig, twitterConfig, twitterAvgPrices, dictGetD, matrixGetD, dt,
      rataDie, daysBeforeMonth, isLeap, dayOf, hourOf, minuteOf, round4, round_eq,
      List.insertionSort, List.orderedInsert, txnKeyLE, resetRemaining, List.filter,
      List.filterMap, beq_iff_eq, Prod.ext_iff, min_def, max_def]

set_option maxRecDepth 8000 in
theorem c7tab1 : dictGetD (khAvgPrices c7stream1) 1061683200 (551 / 20) = 1411 / 50 := by
  norm_num [c7stream1, khAvgPrices, dictGetD, buildKHPrices, weekdayOf, rataDie,
    daysBeforeMonth, isLeap, clampKH, dt]

set_option maxRecDepth 8000 in
theorem c7tab2 : dictGetD (khAvgPrices c7stream2) 1061683200 (551 / 20) = 1421 / 50 := by
  norm_num [c7stream2, khAvgPrices, dictGetD, buildKHPrices, weekdayOf, rataDie,
    daysBeforeMonth, isLeap, clampKH, dt]

/-- C7 counterexample.  Two separately constructed KRAFT_HEINZ
calculators draw different randomized average-price tables
(`np.random.random()` in `_load_kraft_heinz_avg_prices`), here the
entries 28.22 vs 28.42 for 2019-08-09 (`c7tab1`/`c7tab2`).  On the same
input batch — purchase at 28.30 in the class period, sold 2019-08-09
(rule C, lookback-capped) — one instance reports total recognized loss
0.08 and the other 0, so the summaries are not identical. -/
theorem c7_counterexample :
    (calculate_all_losses (mkConfig .KRAFT_HEINZ c7stream1)
      [{ id := "p1", date := dt 2017 1 3, quantity := 1, price := 28.30,
         ttype := .PURCHASE, entity := "E", fund_name := "F" },
       { id := "s1", date := dt 2019 8 9, quantity := 1, price := 20,
         ttype := .SALE, entity := "E", fund_name := "F" }]).total_recognized_loss =
      0.08 ∧
    (calculate_all_losses (mkConfig .KRAFT_HEINZ c7stream2)
      [{ id := "p1", date := dt 2017 1 3, quantity := 1, price := 28.30,
         ttype := .PURCHASE, entity := "E", fund_name := "F" },
       { id := "s1", date := dt 2019 8 9, quantity := 1, price := 20,
         ttype := .SALE, entity := "E", fund_name := "F" }]).total_recognized_loss =
      0 := by
  constructor
  · norm_num [show TransactionType.PURCHASE ≠ TransactionType.BEGINNING_HOLDINGS from by decide,
      show TransactionType.BEGINNING_HOLDINGS ≠ TransactionType.PURCHASE from by decide,
      show TransactionType.SALE ≠ TransactionType.BEGINNING_HOLDINGS from by decide,
      show TransactionType.SALE ≠ TransactionType.PURCHASE from by decide,
      show TransactionType.PURCHASE ≠ TransactionType.SALE from by decide,
      show SettlementType.KRAFT_HEINZ ≠ SettlementType.TWITTER from by decide,
      show "Before 11/2/2018" ≠ "8/8/2019 (sale only)" from by decide,
      show "11/2/2018 - 2/21/2019" ≠ "8/8/2019 (sale only)" from by decide,
      show "2/22/2019 - 8/7/2019" ≠ "8/8/2019 (sale only)" from by decide,
      show "After 8/8/2019" ≠ "8/8/2019 (sale only)" from by decide,
      c7tab1, calculate_all_losses, calculate_all_losses_full, perform_fifo_matching,
      build_inventory, fifoStep, processSaleLoop, mkSaleMatch, calc_purchase_date,
      calc_purchase_price, calculate_recognized_loss_per_share,
      calculate_kraft_heinz_loss, get_inflation_at_date, inflationLoop, mkConfig,
      khConfig, khInflationPeriods, dt, rataDie, daysBeforeMonth, isLeap,
      calculate_held_losses, mkHeldMatch, round4, round2, round_eq,
      List.insertionSort, List.orderedInsert, txnKeyLE, resetRemaining,
      calculate_entity_summary, calculate_fund_summary, bumpGroups, bumpGroupAcc,
      bumpRule, addMember, finalizeGroup, List.filter, List.filterMap, beq_iff_eq,
      min_def, max_def]
  · norm_num [show TransactionType.PURCHASE ≠ TransactionType.BEGINNING_HOLDINGS from by decide,
      show TransactionType.BEGINNING_HOLDINGS ≠ TransactionType.PURCHASE from by decide,
      show TransactionType.SALE ≠ TransactionType.BEGINNING_HOLDINGS from by decide,
      show TransactionType.SALE ≠ TransactionType.PURCHASE from by decide,
      show TransactionType.PURCHASE ≠ TransactionType.SALE from by decide,
      show SettlementType.KRAFT_HEINZ ≠ SettlementType.TWITTER from by decide,
      show "Before 11/2/2018" ≠ "8/8/2019 (sale only)" from by decide,
      show "11/2/2018 - 2/21/2019" ≠ "8/8/2019 (sale only)" from by decide,
      show "2/22/2019 - 8/7/2019" ≠ "8/8/2019 (sale only)" from by decide,
      show "After 8/8/2019" ≠ "8/8/2019 (sale only)" from by decide,
      c7tab2, calculate_all_losses, calculate_all_losses_full, perform_fifo_matching,
      build_inventory, fifoStep, processSaleLoop, mkSaleMatch, calc_purchase_date,
      calc_purchase_price, calculate_recognized_loss_per_share,
      calculate_kraft_heinz_loss, get_inflation_at_date, inflationLoop, mkConfig,
      khConfig, khInflationPeriods, dt, rataDie, daysBeforeMonth, isLeap,
      calculate_held_losses, mkHeldMatch, round4, round2, round_eq,
      List.insertionSort, List.orderedInsert, txnKeyLE, resetRemaining,
      calculate_entity_summary, calculate_fund_summary, bumpGroups, bumpGroupAcc,
      bumpRule, addMember, finalizeGroup, List.filter, List.filterMap, beq_iff_eq,
      min_def, max_def]

end DRRT
